import Mathlib

/-!
Verification of the course-service core of the NestTask repository:
the schedule codec (`formatClassTimes` / the parsing in `mapCourseFromDB`),
the client-side permission gate, and the `bulkImportCourses` pipeline.

The JavaScript/TypeScript source is embedded shallowly:
* JS `String.prototype.split` / `includes` / `Array.join` are embedded as
  executable functions on `List Char` (`jsSplitGoL`, `hasSubL`, `joinL`) with
  `String` wrappers, reproducing JS leftmost non-overlapping matching.
* JS truthiness on optional strings (`undefined` or `""` are falsy) is
  `jsFalsy`; JS `a || b` on such values is `jsOr`.
* The remote store (supabase) is an external collaborator: each store call's
  reply is an oracle supplied per row (`RowEnv`), covering in-band errors
  (`storeErr`, the `{ data, error }` shape) and thrown exceptions (`threw`).
  The calls a run would issue are recorded in a `calls` trace.
-/

/-- JS truthiness for `string | undefined`: `undefined` and `""` are falsy. -/
def jsFalsy : Option String → Bool
  | none => true
  | some s => s == ""

/-- JS `a || b` on optional strings: returns `a` when truthy, else `b`. -/
def jsOr (a b : Option String) : Option String :=
  if jsFalsy a then b else a

/-- JS `s.includes(sep)` at the character-list level. -/
def hasSubL (sep : List Char) : List Char → Bool
  | [] => sep.isEmpty
  | c :: rest => sep.isPrefixOf (c :: rest) || hasSubL sep rest

/-- JS `s.includes(sep)`. -/
def hasSubStr (sep s : String) : Bool :=
  hasSubL sep.data s.data

/-- Worker for JS `s.split(sep)`: scans left to right; on a match emits the
accumulated chunk and skips the remaining `sep.length - 1` matched characters
via the `skip` counter.  Faithful to JS leftmost non-overlapping semantics for
the non-empty separators the source uses. -/
def jsSplitGoL (sep : List Char) : List Char → Nat → List Char → List (List Char)
  | [], _, acc => [acc.reverse]
  | _ :: rest, skip + 1, acc => jsSplitGoL sep rest skip acc
  | c :: rest, 0, acc =>
    if sep.isPrefixOf (c :: rest) then
      acc.reverse :: jsSplitGoL sep rest (sep.length - 1) []
    else
      jsSplitGoL sep rest 0 (c :: acc)

/-- JS `s.split(sep)` at the character-list level. -/
def jsSplitL (sep s : List Char) : List (List Char) :=
  jsSplitGoL sep s 0 []

/-- JS `s.split(sep)` (for the non-empty separators used by the source). -/
def jsSplit (sep s : String) : List String :=
  (jsSplitL sep.data s.data).map String.mk

/-- JS `array.join(sep)` at the character-list level. -/
def joinL (sep : List Char) : List (List Char) → List Char
  | [] => []
  | [x] => x
  | x :: y :: rest => x ++ sep ++ joinL sep (y :: rest)

/-- JS `array.join(sep)`. -/
def joinSep (sep : String) : List String → String
  | [] => ""
  | [x] => x
  | x :: y :: rest => x ++ sep ++ joinSep sep (y :: rest)

/-- A structured class-time entry as produced by the application
(`ClassTime` shape: `day` and `time` strings, optional `classroom`). -/
structure ClassTimeEntry where
  day : String
  time : String
  classroom : Option String
deriving DecidableEq, Repr

/-- A class-time entry as it comes out of the parsing in `mapCourseFromDB`:
JS array destructuring makes `time` (`split(' at ')[1]`) and `classroom`
(`split(' in ')[1]`) possibly `undefined`, hence `Option`. -/
structure RawEntry where
  day : String
  time : Option String
  classroom : Option String
deriving DecidableEq, Repr

/-- The embedding of a well-formed `ClassTimeEntry` into the decoded shape. -/
def toRaw (ct : ClassTimeEntry) : RawEntry :=
  ⟨ct.day, some ct.time, ct.classroom⟩

/-- Source (`createCourse` / `updateCourse` / `bulkImportCourses`):
`` `${ct.day} at ${ct.time}${ct.classroom ? ` in ${ct.classroom}` : ''}` ``. -/
def formatClassTime (ct : ClassTimeEntry) : String :=
  ct.day ++ " at " ++ ct.time ++
    (match ct.classroom with
     | some c => if c == "" then "" else " in " ++ c
     | none => "")

/-- Source: `course.classTimes.map(...).join(', ')` — the schedule encoder. -/
def formatClassTimes (entries : List ClassTimeEntry) : String :=
  joinSep ", " (entries.map formatClassTime)

/-- Source (`mapCourseFromDB`), per fragment of `data.class_time.split(', ')`:
check `includes(' in ')`; if so destructure `split(' in ')` into
`[timeInfo, classroom]` and `timeInfo.split(' at ')` into `[day, time]`;
otherwise destructure `split(' at ')` into `[day, time]`.
JS destructuring takes elements 0 and 1 (`undefined` when missing); `split`
always returns at least one element, so `day` is total. -/
def decodeClassTimeFragment (timeStr : String) : RawEntry :=
  if hasSubStr " in " timeStr then
    let parts := jsSplit " in " timeStr
    let timeInfo := (parts.get? 0).getD ""
    let dt := jsSplit " at " timeInfo
    ⟨(dt.get? 0).getD "", dt.get? 1, parts.get? 1⟩
  else
    let dt := jsSplit " at " timeStr
    ⟨(dt.get? 0).getD "", dt.get? 1, none⟩

/-- Source (`mapCourseFromDB`): `data.class_time.split(', ').map(...)` —
the schedule decoder. -/
def parseClassTimes (class_time : String) : List RawEntry :=
  (jsSplit ", " class_time).map decodeClassTimeFragment

/-- Fields that make the codec round-trip: the field contains no `","`,
no `" at"` and no `" in"` (each of which could create or absorb a delimiter
occurrence at a fragment junction). -/
def okField (s : String) : Bool :=
  !(hasSubStr "," s) && !(hasSubStr " at" s) && !(hasSubStr " in" s)

/-- Entry whose encoding decodes back to itself: delimiter-clean fields,
`time` not starting with `"in"` (which could complete an `" in "` occurrence
after the space that ends `" at "`), and a classroom that, when present, is
non-empty (JS truthiness drops an empty classroom on encode). -/
def okEntry (ct : ClassTimeEntry) : Bool :=
  okField ct.day && okField ct.time && !(("in").data.isPrefixOf ct.time.data) &&
    (match ct.classroom with
     | none => true
     | some c => !(c == "") && okField c)

/-! ## The bulk import pipeline -/

/-- The session identity as read from `supabase.auth.getUser()`:
`user_metadata.role` and `user_metadata.sectionId` may be absent. -/
structure UserSession where
  id : String
  role : Option String
  sectionId : Option String
deriving DecidableEq, Repr

/-- A candidate course for import (`NewCourse`). -/
structure NewCourse where
  name : String
  code : String
  teacher : String
  classTimes : List ClassTimeEntry
  telegramGroup : Option String
  blcLink : Option String
  blcEnrollKey : Option String
  credit : Int
  «section» : Option String
  teacherId : Option String
deriving DecidableEq, Repr

/-- An entry of the `errors` array returned by `bulkImportCourses`
(the `details` payload is not modelled; only its presence patterns matter
through `message`/`isWarning`/`isSuccess`). -/
structure Outcome where
  message : String
  isWarning : Bool
  isSuccess : Bool
deriving DecidableEq, Repr

/-- The record passed to `supabase.from('courses').insert(...)`. -/
structure CourseRecord where
  name : String
  code : String
  teacher : String
  class_time : String
  telegram_group : Option String
  blc_link : Option String
  blc_enroll_key : Option String
  credit : Int
  «section» : Option String
  teacher_id : Option String
deriving DecidableEq, Repr

/-- The record passed to `supabase.from('teachers').insert(...)`. -/
structure TeacherRecord where
  name : String
  phone : String
  department : Option String
deriving DecidableEq, Repr

/-- Reply of the duplicate-code query (`.maybeSingle()`): an in-band store
error (`checkError`), an existing row, or none. -/
inductive DupRes
  | storeErr (msg : String)
  | found
  | notFound
deriving DecidableEq, Repr

/-- Reply of `checkTeacherNameExists`: thrown exception or a boolean. -/
inductive ExistsRes
  | threw (msg : String)
  | ok (b : Bool)
deriving DecidableEq, Repr

/-- Reply of the teacher insert: in-band `teacherError`, the new row's id,
or a thrown exception (`teacherCreateError`). -/
inductive TInsRes
  | storeErr (msg : String)
  | ok (id : String)
  | threw (msg : String)
deriving DecidableEq, Repr

/-- Reply of the teacher id fetch (`.ilike('name', ...)`): in-band error,
an optional matching id, or a thrown exception. -/
inductive TFetchRes
  | storeErr (msg : String)
  | ok (id : Option String)
  | threw (msg : String)
deriving DecidableEq, Repr

/-- Reply of the course insert: in-band error, success, or thrown. -/
inductive CInsRes
  | storeErr (msg : String)
  | ok
  | threw (msg : String)
deriving DecidableEq, Repr

/-- The store's replies for one candidate row (oracle for the external
collaborator's behaviour on the calls the row may issue). -/
structure RowEnv where
  dupCheck : DupRes
  teacherLookup : ExistsRes
  teacherInsert : TInsRes
  teacherFetch : TFetchRes
  courseInsert : CInsRes
deriving DecidableEq, Repr

/-- Trace entry: a store call the pipeline issued, with the reply it got. -/
inductive StoreCall
  | dupCheck (code : String) (res : DupRes)
  | teacherNameLookup (name : String) (res : ExistsRes)
  | teacherInsert (rcd : TeacherRecord) (res : TInsRes)
  | teacherIdFetch (name : String) (res : TFetchRes)
  | courseInsert (rcd : CourseRecord) (res : CInsRes)
deriving DecidableEq, Repr

/-- Result of processing one candidate row: outcomes pushed onto `errors`,
the increment to `successCount` (0 or 1), and the store calls issued. -/
structure RowResult where
  outcomes : List Outcome
  inc : Nat
  calls : List StoreCall
deriving DecidableEq, Repr

/-- The value returned by `bulkImportCourses`, enriched with the call trace. -/
structure Report where
  success : Nat
  errors : List Outcome
  calls : List StoreCall
deriving DecidableEq, Repr

/-- The `Course #${i + 1} (${course.code}): ` message prefix. -/
def rowTag (i : Nat) (code : String) : String :=
  "Course #" ++ toString (i + 1) ++ " (" ++ code ++ "): "

/-- Result of the teacher-resolution block of one row: outcomes pushed,
the `teacherId` local after the block, calls issued, and the message of an
exception that escaped the block to the row boundary (only
`checkTeacherNameExists` can throw past the inner handlers). -/
structure TeacherStep where
  outcomes : List Outcome
  teacherId : Option String
  calls : List StoreCall
  thrown : Option String
deriving DecidableEq, Repr

/-- Source (`bulkImportCourses`, teacher resolution):
`let teacherId = course.teacherId; if (!teacherId && course.teacher) { ... }`.
When the name has no match, insert a teacher (`phone: 'N/A'`,
`department: course.«section» || user?.user_metadata?.sectionId || undefined`);
in-band failure and thrown failure are both converted to soft warnings by the
inner handlers and the row proceeds with `teacherId` unchanged.  When the name
matches, fetch the id case-insensitively; failures there are only logged. -/
def resolveTeacher (userSectionId : Option String) (i : Nat) (course : NewCourse)
    (env : RowEnv) : TeacherStep :=
  if jsFalsy course.teacherId && !(course.teacher == "") then
    match env.teacherLookup with
    | .threw m => ⟨[], course.teacherId, [.teacherNameLookup course.teacher (.threw m)], some m⟩
    | .ok false =>
      let rcd : TeacherRecord :=
        ⟨course.teacher, "N/A", jsOr course.«section» (jsOr userSectionId none)⟩
      match env.teacherInsert with
      | .storeErr m =>
        ⟨[⟨rowTag i course.code ++ "Warning - Could not create teacher \"" ++
             course.teacher ++ "\": " ++ m, true, false⟩],
         course.teacherId,
         [.teacherNameLookup course.teacher (.ok false), .teacherInsert rcd (.storeErr m)],
         none⟩
      | .ok newId =>
        ⟨[⟨"Created teacher \"" ++ course.teacher ++ "\" for course \"" ++
             course.code ++ "\"", true, true⟩],
         some newId,
         [.teacherNameLookup course.teacher (.ok false), .teacherInsert rcd (.ok newId)],
         none⟩
      | .threw m =>
        ⟨[⟨rowTag i course.code ++ "Warning - Failed to create teacher: " ++ m, true, false⟩],
         course.teacherId,
         [.teacherNameLookup course.teacher (.ok false), .teacherInsert rcd (.threw m)],
         none⟩
    | .ok true =>
      match env.teacherFetch with
      | .ok (some tid) =>
        ⟨[], some tid,
         [.teacherNameLookup course.teacher (.ok true), .teacherIdFetch course.teacher (.ok (some tid))], none⟩
      | .ok none =>
        ⟨[], course.teacherId,
         [.teacherNameLookup course.teacher (.ok true), .teacherIdFetch course.teacher (.ok none)], none⟩
      | .storeErr m =>
        ⟨[], course.teacherId,
         [.teacherNameLookup course.teacher (.ok true), .teacherIdFetch course.teacher (.storeErr m)], none⟩
      | .threw m =>
        ⟨[], course.teacherId,
         [.teacherNameLookup course.teacher (.ok true), .teacherIdFetch course.teacher (.threw m)], none⟩
  else
    ⟨[], course.teacherId, [], none⟩

/-- The course record the row would insert, given the resolved teacher id:
`section: course.«section» || user?.user_metadata?.sectionId`. -/
def rowInsertRecord (userSectionId : Option String) (course : NewCourse)
    (teacherId : Option String) : CourseRecord :=
  ⟨course.name, course.code, course.teacher, formatClassTimes course.classTimes,
   course.telegramGroup, course.blcLink, course.blcEnrollKey, course.credit,
   jsOr course.«section» userSectionId, teacherId⟩

/-- Source (`bulkImportCourses`): the body of the `for` loop for candidate
`i`, including the per-row `try/catch`.  Control flow, in order: the
section-admin section check (soft-warning skip), the duplicate-code query
(in-band `checkError` is re-thrown and caught at the row boundary; a found
row is a hard error), teacher resolution, and the course insert (in-band
error is a hard error; success increments the counter).  Any exception
reaching the row boundary becomes one hard error outcome
`Course #${i+1} (${course.code}): ${error.message}`. -/
def processRow (userRole : String) (userSectionId : Option String) (i : Nat)
    (course : NewCourse) (env : RowEnv) : RowResult :=
  if userRole == "section_admin" && jsFalsy course.«section» then
    ⟨[⟨rowTag i course.code ++ "Section admin must specify a section for the course",
        true, false⟩], 0, []⟩
  else
    match env.dupCheck with
    | .storeErr m =>
      ⟨[⟨rowTag i course.code ++ "Error checking for existing course: " ++ m, false, false⟩],
       0, [.dupCheck course.code (.storeErr m)]⟩
    | .found =>
      ⟨[⟨rowTag i course.code ++ "A course with this code already exists", false, false⟩],
       0, [.dupCheck course.code .found]⟩
    | .notFound =>
      let ts := resolveTeacher userSectionId i course env
      match ts.thrown with
      | some m =>
        ⟨ts.outcomes ++ [⟨rowTag i course.code ++ m, false, false⟩], 0,
         .dupCheck course.code .notFound :: ts.calls⟩
      | none =>
        let rcd := rowInsertRecord userSectionId course ts.teacherId
        match env.courseInsert with
        | .storeErr m =>
          ⟨ts.outcomes ++ [⟨rowTag i course.code ++ m, false, false⟩], 0,
           .dupCheck course.code .notFound :: (ts.calls ++ [.courseInsert rcd (.storeErr m)])⟩
        | .ok =>
          ⟨ts.outcomes, 1,
           .dupCheck course.code .notFound :: (ts.calls ++ [.courseInsert rcd .ok])⟩
        | .threw m =>
          ⟨ts.outcomes ++ [⟨rowTag i course.code ++ m, false, false⟩], 0,
           .dupCheck course.code .notFound :: (ts.calls ++ [.courseInsert rcd (.threw m)])⟩

/-- The sequential batch loop: rows in input order, accumulating outcomes,
the success count, and the call trace. -/
def bulkLoop (userRole : String) (userSectionId : Option String)
    (env : Nat → RowEnv) : List NewCourse → Nat → List Outcome × Nat × List StoreCall
  | [], _ => ([], 0, [])
  | c :: rest, i =>
    let r := processRow userRole userSectionId i c (env i)
    let t := bulkLoop userRole userSectionId env rest (i + 1)
    (r.outcomes ++ t.1, r.inc + t.2.1, r.calls ++ t.2.2)

/-- The single outcome produced when the batch-level permission check throws
and the outer `catch` records `Bulk import failed: ${error.message}`. -/
def permissionDeniedReport : Report :=
  ⟨0, [⟨"Bulk import failed: Permission denied: Only admins and section admins can import courses",
        false, false⟩], []⟩

/-- Source: `bulkImportCourses(courses)`.  Resolves
`user?.user_metadata?.role` once; `!userRole || (userRole !== 'admin' &&
userRole !== 'section_admin')` aborts the whole batch through the outer
`catch` with a single hard error and no store calls; otherwise the rows are
processed sequentially. -/
def bulkImportCourses (user : Option UserSession) (env : Nat → RowEnv)
    (courses : List NewCourse) : Report :=
  match user with
  | none => permissionDeniedReport
  | some u =>
    match u.role with
    | none => permissionDeniedReport
    | some r =>
      if r == "" || (r != "admin" && r != "section_admin") then
        permissionDeniedReport
      else
        let t := bulkLoop r u.sectionId env courses 0
        ⟨t.2.1, t.1, t.2.2⟩

/-- Source: `createCourse(course)`.  Same role gate as the bulk path, then the
section_admin section requirement, then a single insert
(`section: course.«section»`, no `teacher_id` field).  The in-band insert error
becomes `Failed to create course: ${error.message}`; success returns the
mapped row, modelled as the inserted record. -/
def createCourse (user : Option UserSession) (insertRes : CInsRes)
    (course : NewCourse) : Except String CourseRecord :=
  let userRole := user.bind UserSession.role
  if jsFalsy userRole || (userRole != some "admin" && userRole != some "section_admin") then
    .error "Permission denied: Only admins and section admins can create courses"
  else if userRole == some "section_admin" && jsFalsy course.«section» then
    .error "Section admin must specify a section for the course"
  else
    match insertRes with
    | .storeErr m => .error ("Failed to create course: " ++ m)
    | .threw m => .error m
    | .ok =>
      .ok ⟨course.name, course.code, course.teacher, formatClassTimes course.classTimes,
           course.telegramGroup, course.blcLink, course.blcEnrollKey, course.credit,
           course.«section», none⟩

/-- Modelled from the spec: `checkTeacherNameExists` lives in
`teacher.service.ts`, which is not among the provided sources; the spec says
teacher existence is checked by case-insensitive name match against the
teachers table. -/
def checkTeacherNameExists (table : List TeacherRecord) (name : String) : Bool :=
  table.any (fun t => t.name.data.map Char.toLower == name.data.map Char.toLower)

/-- Predicate for a call-trace entry being a course insert that succeeded. -/
def isOkCourseInsert : StoreCall → Bool
  | .courseInsert _ .ok => true
  | _ => false

/-- Predicate for hard errors (outcomes not flagged as warnings). -/
def isHardError (o : Outcome) : Bool :=
  !o.isWarning

/-- No occurrence of `sep` starts inside `a` when the text continues with
`t` — the invariant that lets the splitter scan across `a`. -/
def CleanBefore (sep a t : List Char) : Prop :=
  ∀ k, k < a.length → ¬ sep <+: (a.drop k ++ t)

/-- `CleanBefore` for every part of a join, each w.r.t. the text that
follows it. -/
def CleanParts (sep : List Char) : List (List Char) → Prop
  | [] => True
  | [p] => CleanBefore sep p []
  | p :: q :: rest =>
    CleanBefore sep p (sep ++ joinL sep (q :: rest)) ∧ CleanParts sep (q :: rest)

/-! ## String lemmas: JS split recovers a join whose parts are clean -/

theorem prefix_of_append_left {l u t : List Char} (h : l <+: u ++ t)
    (hlen : l.length ≤ u.length) : l <+: u := by
  induction l generalizing u with
  | nil => exact List.nil_prefix
  | cons a l ih =>
    cases u with
    | nil => simp at hlen
    | cons b u =>
      rw [List.cons_append, List.cons_prefix_cons] at h
      exact List.cons_prefix_cons.mpr ⟨h.1, ih h.2 (by simpa using hlen)⟩

theorem prefix_append_straddle {l u t : List Char} (h : l <+: u ++ t)
    (hlen : u.length < l.length) : u <+: l ∧ l.drop u.length <+: t := by
  induction u generalizing l with
  | nil => exact ⟨List.nil_prefix, by simpa using h⟩
  | cons b u ih =>
    cases l with
    | nil => simp at hlen
    | cons a l =>
      rw [List.cons_append, List.cons_prefix_cons] at h
      obtain ⟨h1, h2⟩ := h
      obtain ⟨hu, hd⟩ := ih h2 (by simpa using Nat.lt_of_succ_lt_succ (by simpa using hlen))
      exact ⟨List.cons_prefix_cons.mpr ⟨h1.symm, hu⟩, by simpa using hd⟩

theorem suffix_of_append_right {z x y : List Char} (h : z <:+ x ++ y)
    (hlen : z.length ≤ y.length) : z <:+ y := by
  rw [← List.reverse_prefix] at h ⊢
  rw [List.reverse_append] at h
  exact prefix_of_append_left h (by simpa using hlen)

theorem suffix_append_straddle {z x y : List Char} (h : z <:+ x ++ y)
    (hlen : y.length ≤ z.length) : ∃ z₁, z = z₁ ++ y ∧ z₁ <:+ x := by
  rw [← List.reverse_prefix, List.reverse_append] at h
  rcases Nat.lt_or_ge y.length z.length with hlt | hge
  · obtain ⟨hu, hd⟩ := prefix_append_straddle h (by simpa using hlt)
    have hy : y <:+ z := List.reverse_prefix.mp hu
    obtain ⟨z₁, hz₁⟩ := hy
    refine ⟨z₁, hz₁.symm, ?_⟩
    have hdrop : z.reverse.drop y.length = z₁.reverse := by
      rw [← hz₁, List.reverse_append]
      have : (y.reverse).length = y.length := List.length_reverse y
      rw [← this, List.drop_left]
    rw [List.length_reverse, hdrop] at hd
    exact List.reverse_prefix.mp hd
  · have heq : z.length = y.length := Nat.le_antisymm hge hlen
    have hz : z.reverse <+: y.reverse :=
      prefix_of_append_left h (by simpa using Nat.le_of_eq heq)
    have : z.reverse = y.reverse :=
      List.IsPrefix.eq_of_length hz (by simpa using heq)
    have hzy : z = y := by
      have := congrArg List.reverse this
      simpa using this
    exact ⟨[], by simpa using hzy, List.nil_suffix⟩

theorem hasSubL_iff {sep s : List Char} :
    hasSubL sep s = true ↔ ∃ k, sep <+: s.drop k := by
  induction s with
  | nil =>
    simp only [hasSubL, List.isEmpty_iff]
    constructor
    · rintro rfl; exact ⟨0, by simp⟩
    · rintro ⟨k, hk⟩
      simpa [List.prefix_nil] using hk
  | cons c rest ih =>
    simp only [hasSubL, Bool.or_eq_true, List.isPrefixOf_iff_prefix, ih]
    constructor
    · rintro (h | ⟨k, hk⟩)
      · exact ⟨0, by simpa using h⟩
      · exact ⟨k + 1, by simpa using hk⟩
    · rintro ⟨k, hk⟩
      cases k with
      | zero => exact Or.inl (by simpa using hk)
      | succ k => exact Or.inr ⟨k, by simpa using hk⟩

theorem hasSubL_mono {sep₁ sep₂ s : List Char} (hp : sep₁ <+: sep₂)
    (h : hasSubL sep₂ s = true) : hasSubL sep₁ s = true := by
  rw [hasSubL_iff] at h ⊢
  obtain ⟨k, hk⟩ := h
  exact ⟨k, hp.trans hk⟩

theorem hasSubL_of_suffix {z s : List Char} (h : z <:+ s) : hasSubL z s = true := by
  rw [hasSubL_iff]
  obtain ⟨w, hw⟩ := h
  refine ⟨w.length, ?_⟩
  rw [← hw, List.drop_left]

theorem hasSubL_singleton_iff {c : Char} {s : List Char} :
    hasSubL [c] s = true ↔ c ∈ s := by
  rw [hasSubL_iff]
  constructor
  · rintro ⟨k, w, hw⟩
    have : c ∈ s.drop k := by rw [← hw]; exact List.mem_append_left _ (by simp)
    exact List.mem_of_mem_drop this
  · intro hc
    obtain ⟨u, v, rfl⟩ := List.append_of_mem hc
    exact ⟨u.length, by rw [List.drop_left]; exact ⟨v, rfl⟩⟩

theorem hasSubL_append_cases {sep x y : List Char} (h : hasSubL sep (x ++ y) = true) :
    hasSubL sep x = true ∨ hasSubL sep y = true ∨
      ∃ j, 0 < j ∧ j < sep.length ∧ sep.take j <:+ x ∧ sep.drop j <+: y := by
  rw [hasSubL_iff] at h
  obtain ⟨k, hk⟩ := h
  rcases le_or_lt x.length k with hxk | hxk
  · refine Or.inr (Or.inl ?_)
    rw [hasSubL_iff]
    refine ⟨k - x.length, ?_⟩
    rwa [List.drop_append_eq_append_drop, List.drop_eq_nil_of_le hxk, List.nil_append] at hk
  · have hsplit : (x ++ y).drop k = x.drop k ++ y := by
      rw [List.drop_append_eq_append_drop, Nat.sub_eq_zero_of_le (Nat.le_of_lt hxk),
        List.drop_zero]
    rw [hsplit] at hk
    rcases le_or_lt sep.length (x.drop k).length with hlen | hlen
    · exact Or.inl (hasSubL_iff.mpr ⟨k, prefix_of_append_left hk hlen⟩)
    · obtain ⟨hu, hd⟩ := prefix_append_straddle hk hlen
      refine Or.inr (Or.inr ⟨(x.drop k).length, ?_, hlen, ?_, hd⟩)
      · rw [List.length_drop]; omega
      · rw [← List.prefix_iff_eq_take.mp hu]
        exact List.drop_suffix k x

theorem hasSubL_sandwich (sep x y : List Char) :
    hasSubL sep (x ++ (sep ++ y)) = true := by
  rw [hasSubL_iff]
  refine ⟨x.length, ?_⟩
  rw [List.drop_left]
  exact List.prefix_append sep y

theorem cleanBefore_intro {sep a t : List Char} (h1 : hasSubL sep a = false)
    (h2 : ∀ j, 0 < j → j < sep.length → sep.take j <:+ a → ¬ sep.drop j <+: t) :
    CleanBefore sep a t := by
  intro k hk hpre
  rcases le_or_lt sep.length (a.drop k).length with hlen | hlen
  · have hin : hasSubL sep a = true :=
      hasSubL_iff.mpr ⟨k, prefix_of_append_left hpre hlen⟩
    rw [h1] at hin
    exact Bool.false_ne_true hin
  · obtain ⟨hu, hd⟩ := prefix_append_straddle hpre hlen
    refine h2 (a.drop k).length ?_ hlen ?_ hd
    · rw [List.length_drop]; omega
    · rw [← List.prefix_iff_eq_take.mp hu]
      exact List.drop_suffix k a

theorem jsSplitGoL_consume (sep u : List Char) :
    ∀ t acc, jsSplitGoL sep (u ++ t) u.length acc = jsSplitGoL sep t 0 acc := by
  induction u with
  | nil => intro t acc; rfl
  | cons c u ih =>
    intro t acc
    simpa only [List.cons_append, List.length_cons, jsSplitGoL] using ih t acc

theorem jsSplitGoL_clean (sep : List Char) {a : List Char} (t : List Char) :
    ∀ acc, CleanBefore sep a t →
      jsSplitGoL sep (a ++ t) 0 acc = jsSplitGoL sep t 0 (a.reverse ++ acc) := by
  induction a with
  | nil => intro acc _; simp
  | cons c a ih =>
    intro acc hclean
    have h0 : ¬ sep.isPrefixOf (c :: (a ++ t)) = true := by
      rw [List.isPrefixOf_iff_prefix]
      have := hclean 0 (by simp)
      simpa using this
    have hshift : CleanBefore sep a t := by
      intro k hk
      have := hclean (k + 1) (by simp; omega)
      simpa using this
    rw [List.cons_append]
    show jsSplitGoL sep (c :: (a ++ t)) 0 acc = _
    rw [jsSplitGoL, if_neg h0, ih (c :: acc) hshift]
    simp

theorem jsSplitGoL_boundary (sep : List Char) (hsep : sep ≠ []) (t acc : List Char) :
    jsSplitGoL sep (sep ++ t) 0 acc = acc.reverse :: jsSplitGoL sep t 0 [] := by
  cases sep with
  | nil => exact absurd rfl hsep
  | cons b sep₂ =>
    have hpre : (b :: sep₂).isPrefixOf (b :: (sep₂ ++ t)) = true := by
      rw [List.isPrefixOf_iff_prefix]
      exact List.cons_prefix_cons.mpr ⟨rfl, List.prefix_append _ _⟩
    rw [List.cons_append]
    show jsSplitGoL (b :: sep₂) (b :: (sep₂ ++ t)) 0 acc = _
    rw [jsSplitGoL, if_pos hpre]
    have hl : (b :: sep₂).length - 1 = sep₂.length := by simp
    rw [hl, jsSplitGoL_consume]

theorem jsSplitL_joinL (sep : List Char) (hsep : sep ≠ []) :
    ∀ parts, parts ≠ [] → CleanParts sep parts →
      jsSplitL sep (joinL sep parts) = parts := by
  intro parts
  induction parts with
  | nil => intro h; exact absurd rfl h
  | cons p rest ih =>
    intro _ hclean
    cases rest with
    | nil =>
      have hc : CleanBefore sep p [] := hclean
      show jsSplitGoL sep (joinL sep [p]) 0 [] = [p]
      have hp : joinL sep [p] = p ++ [] := by simp [joinL]
      rw [hp, jsSplitGoL_clean sep [] [] hc]
      simp [jsSplitGoL]
    | cons q rest₂ =>
      obtain ⟨hc, hrest⟩ := hclean
      show jsSplitGoL sep (joinL sep (p :: q :: rest₂)) 0 [] = p :: q :: rest₂
      have hj : joinL sep (p :: q :: rest₂) = p ++ (sep ++ joinL sep (q :: rest₂)) := by
        rw [joinL, List.append_assoc]
      rw [hj, jsSplitGoL_clean sep _ [] hc, jsSplitGoL_boundary sep hsep]
      simp only [List.append_nil, List.reverse_reverse]
      exact congrArg (p :: ·) (ih (by simp) hrest)

/-! ## Cleanliness facts for the three concrete separators -/

theorem data_comma_str : (",").data = [','] := rfl

theorem data_comma_sp : (", ").data = [',', ' '] := rfl

theorem data_at_four : (" at ").data = [' ', 'a', 't', ' '] := rfl

theorem data_at_three : (" at").data = [' ', 'a', 't'] := rfl

theorem data_in_four : (" in ").data = [' ', 'i', 'n', ' '] := rfl

theorem data_in_three : (" in").data = [' ', 'i', 'n'] := rfl

theorem comma_one_pre_two : ([','] : List Char) <+: [',', ' '] := ⟨[' '], rfl⟩

theorem at_three_pre_four : ([' ', 'a', 't'] : List Char) <+: [' ', 'a', 't', ' '] := ⟨[' '], rfl⟩

theorem in_three_pre_four : ([' ', 'i', 'n'] : List Char) <+: [' ', 'i', 'n', ' '] := ⟨[' '], rfl⟩

theorem in_two_pre_three : (['i', 'n'] : List Char) <+: ['i', 'n', ' '] := ⟨[' '], rfl⟩

theorem okField_spec {s : String} (h : okField s = true) :
    hasSubL [','] s.data = false ∧ hasSubL [' ', 'a', 't'] s.data = false ∧
      hasSubL [' ', 'i', 'n'] s.data = false := by
  simp only [okField, hasSubStr, data_comma_str, data_at_three, data_in_three,
    Bool.and_eq_true, Bool.not_eq_true'] at h
  exact ⟨h.1.1, h.1.2, h.2⟩

theorem cleanBefore_comma {f : List Char} (hf : ',' ∉ f) (t : List Char) :
    CleanBefore [',', ' '] f t := by
  apply cleanBefore_intro
  · rw [Bool.eq_false_iff]
    intro h
    exact hf (hasSubL_singleton_iff.mp (hasSubL_mono comma_one_pre_two h))
  · intro j hj0 hj2 hsuf _
    simp only [List.length_cons, List.length_nil] at hj2
    have hj : j = 1 := by omega
    subst hj
    exact hf (hasSubL_singleton_iff.mp (hasSubL_of_suffix (by simpa using hsuf)))

theorem cleanBefore_at_left {dayL timeL : List Char}
    (hday : hasSubL [' ', 'a', 't'] dayL = false) :
    CleanBefore [' ', 'a', 't', ' '] dayL ([' ', 'a', 't', ' '] ++ timeL) := by
  apply cleanBefore_intro
  · rw [Bool.eq_false_iff]
    intro h
    exact absurd (hasSubL_mono at_three_pre_four h) (by simp [hday])
  · intro j hj0 hj4 hsuf hpre
    simp only [List.length_cons, List.length_nil] at hj4
    interval_cases j
    · rw [show ([' ', 'a', 't', ' '] : List Char).drop 1 = ['a', 't', ' '] from rfl] at hpre
      rw [show ([' ', 'a', 't', ' '] : List Char) ++ timeL
            = ' ' :: (['a', 't', ' '] ++ timeL) from rfl] at hpre
      rw [List.cons_prefix_cons] at hpre
      exact absurd hpre.1 (by decide)
    · rw [show ([' ', 'a', 't', ' '] : List Char).drop 2 = ['t', ' '] from rfl] at hpre
      rw [show ([' ', 'a', 't', ' '] : List Char) ++ timeL
            = ' ' :: (['a', 't', ' '] ++ timeL) from rfl] at hpre
      rw [List.cons_prefix_cons] at hpre
      exact absurd hpre.1 (by decide)
    · exact absurd (hasSubL_of_suffix (by simpa using hsuf)) (by simp [hday])

theorem cleanBefore_at_right {timeL : List Char}
    (ht : hasSubL [' ', 'a', 't'] timeL = false) :
    CleanBefore [' ', 'a', 't', ' '] timeL [] := by
  apply cleanBefore_intro
  · rw [Bool.eq_false_iff]
    intro h
    exact absurd (hasSubL_mono at_three_pre_four h) (by simp [ht])
  · intro j hj0 hj4 _ hpre
    have hnil := List.prefix_nil.mp hpre
    have hlen := congrArg List.length hnil
    simp only [List.length_cons, List.length_nil] at hj4
    simp only [List.length_drop, List.length_cons, List.length_nil] at hlen
    omega

theorem hasSub_in_timeInfo {dayL timeL : List Char}
    (hday : hasSubL [' ', 'i', 'n'] dayL = false)
    (htime : hasSubL [' ', 'i', 'n'] timeL = false)
    (htpre : ¬ ['i', 'n'] <+: timeL) :
    hasSubL [' ', 'i', 'n', ' '] (dayL ++ ([' ', 'a', 't', ' '] ++ timeL)) = false := by
  rw [Bool.eq_false_iff]
  intro h
  rcases hasSubL_append_cases h with h1 | h2 | ⟨j, hj0, hj4, hsuf, hpre⟩
  · exact absurd (hasSubL_mono in_three_pre_four h1) (by simp [hday])
  · rcases hasSubL_append_cases h2 with h3 | h4 | ⟨j, hj0, hj4, hsuf, hpre⟩
    · exact absurd h3 (by decide)
    · exact absurd (hasSubL_mono in_three_pre_four h4) (by simp [htime])
    · simp only [List.length_cons, List.length_nil] at hj4
      interval_cases j
      · refine htpre (List.IsPrefix.trans in_two_pre_three ?_)
        simpa using hpre
      · exact absurd (hasSubL_of_suffix (by simpa using hsuf :
          ([' ', 'i'] : List Char) <:+ [' ', 'a', 't', ' '])) (by decide)
      · exact absurd (hasSubL_of_suffix (by simpa using hsuf :
          ([' ', 'i', 'n'] : List Char) <:+ [' ', 'a', 't', ' '])) (by decide)
  · simp only [List.length_cons, List.length_nil] at hj4
    interval_cases j
    · rw [show ([' ', 'i', 'n', ' '] : List Char).drop 1 = ['i', 'n', ' '] from rfl] at hpre
      rw [show ([' ', 'a', 't', ' '] : List Char) ++ timeL
            = ' ' :: (['a', 't', ' '] ++ timeL) from rfl] at hpre
      rw [List.cons_prefix_cons] at hpre
      exact absurd hpre.1 (by decide)
    · rw [show ([' ', 'i', 'n', ' '] : List Char).drop 2 = ['n', ' '] from rfl] at hpre
      rw [show ([' ', 'a', 't', ' '] : List Char) ++ timeL
            = ' ' :: (['a', 't', ' '] ++ timeL) from rfl] at hpre
      rw [List.cons_prefix_cons] at hpre
      exact absurd hpre.1 (by decide)
    · exact absurd (hasSubL_of_suffix (by simpa using hsuf)) (by simp [hday])

theorem suffix_three_short {dayL timeL : List Char}
    (htime : hasSubL [' ', 'i', 'n'] timeL = false)
    (htpre : ¬ ['i', 'n'] <+: timeL)
    (hsuf : ([' ', 'i', 'n'] : List Char) <:+ dayL ++ ([' ', 'a', 't', ' '] ++ timeL)) :
    False := by
  have hsuf3 : ([' ', 'i', 'n'] : List Char) <:+ (dayL ++ [' ', 'a', 't', ' ']) ++ timeL := by
    rw [List.append_assoc]
    exact hsuf
  rcases le_or_lt 3 timeL.length with h3 | h3
  · exact absurd (hasSubL_of_suffix (suffix_of_append_right hsuf3 (by simpa using h3)))
      (by simp [htime])
  · obtain ⟨z₁, hz, hz₁⟩ := suffix_append_straddle hsuf3 (by simp; omega)
    match timeL, h3, hz with
    | [], _, hz =>
      rw [List.append_nil] at hz
      subst hz
      exact absurd (hasSubL_of_suffix (suffix_of_append_right hz₁ (by simp)))
        (by decide)
    | [c1], _, hz =>
      have hlen := congrArg List.length hz
      simp only [List.length_append, List.length_cons, List.length_nil] at hlen
      match z₁, hz with
      | [a1, a2], hz =>
        simp only [List.cons_append, List.nil_append, List.cons.injEq, and_true] at hz
        obtain ⟨ha1, ha2, hc1⟩ := hz
        subst ha1; subst ha2
        exact absurd (hasSubL_of_suffix (suffix_of_append_right hz₁ (by simp)))
          (by decide)
    | [c1, c2], _, hz =>
      have hlen := congrArg List.length hz
      simp only [List.length_append, List.length_cons, List.length_nil] at hlen
      match z₁, hz with
      | [a1], hz =>
        simp only [List.cons_append, List.nil_append, List.cons.injEq, and_true] at hz
        obtain ⟨ha1, hc1, hc2⟩ := hz
        subst hc1; subst hc2
        exact htpre (List.prefix_refl _)

theorem cleanBefore_in_left {dayL timeL crL : List Char}
    (hday : hasSubL [' ', 'i', 'n'] dayL = false)
    (htime : hasSubL [' ', 'i', 'n'] timeL = false)
    (htpre : ¬ ['i', 'n'] <+: timeL) :
    CleanBefore [' ', 'i', 'n', ' '] (dayL ++ ([' ', 'a', 't', ' '] ++ timeL))
      ([' ', 'i', 'n', ' '] ++ crL) := by
  apply cleanBefore_intro
  · exact hasSub_in_timeInfo hday htime htpre
  · intro j hj0 hj4 hsuf hpre
    simp only [List.length_cons, List.length_nil] at hj4
    interval_cases j
    · rw [show ([' ', 'i', 'n', ' '] : List Char).drop 1 = ['i', 'n', ' '] from rfl] at hpre
      rw [show ([' ', 'i', 'n', ' '] : List Char) ++ crL
            = ' ' :: (['i', 'n', ' '] ++ crL) from rfl] at hpre
      rw [List.cons_prefix_cons] at hpre
      exact absurd hpre.1 (by decide)
    · rw [show ([' ', 'i', 'n', ' '] : List Char).drop 2 = ['n', ' '] from rfl] at hpre
      rw [show ([' ', 'i', 'n', ' '] : List Char) ++ crL
            = ' ' :: (['i', 'n', ' '] ++ crL) from rfl] at hpre
      rw [List.cons_prefix_cons] at hpre
      exact absurd hpre.1 (by decide)
    · exact suffix_three_short htime htpre (by simpa using hsuf)

theorem cleanBefore_in_right {crL : List Char}
    (hcr : hasSubL [' ', 'i', 'n'] crL = false) :
    CleanBefore [' ', 'i', 'n', ' '] crL [] := by
  apply cleanBefore_intro
  · rw [Bool.eq_false_iff]
    intro h
    exact absurd (hasSubL_mono in_three_pre_four h) (by simp [hcr])
  · intro j hj0 hj4 _ hpre
    have hnil := List.prefix_nil.mp hpre
    have hlen := congrArg List.length hnil
    simp only [List.length_cons, List.length_nil] at hj4
    simp only [List.length_drop, List.length_cons, List.length_nil] at hlen
    omega

theorem cleanParts_of_forall {sep : List Char} :
    ∀ parts, (∀ p ∈ parts, ∀ t, CleanBefore sep p t) → CleanParts sep parts := by
  intro parts
  induction parts with
  | nil => intro _; trivial
  | cons p rest ih =>
    intro h
    cases rest with
    | nil => exact h p (by simp) []
    | cons q rest₂ =>
      exact ⟨h p (by simp) _, ih (fun r hr t => h r (by simp [hr]) t)⟩

/-! ## Codec assembly: decoding an encoded schedule -/

theorem mk_data (s : String) : String.mk s.data = s := rfl

theorem joinSep_data (sep : String) :
    ∀ l, (joinSep sep l).data = joinL sep.data (l.map String.data) := by
  intro l
  induction l with
  | nil => rfl
  | cons x rest ih =>
    cases rest with
    | nil => rfl
    | cons y rest₂ =>
      show (x ++ sep ++ joinSep sep (y :: rest₂)).data = _
      rw [String.data_append, String.data_append, ih]
      rfl

theorem formatClassTime_data_none {d t : String} :
    (formatClassTime ⟨d, t, none⟩).data = d.data ++ ([' ', 'a', 't', ' '] ++ t.data) := by
  show (d ++ " at " ++ t ++ "").data = _
  rw [String.data_append (d ++ " at " ++ t) "", String.data_append (d ++ " at ") t,
    String.data_append d " at "]
  simp [data_at_four, List.append_assoc]

theorem formatClassTime_data_some {d t c : String} (hc : (c == "") = false) :
    (formatClassTime ⟨d, t, some c⟩).data
      = (formatClassTime ⟨d, t, none⟩).data ++ ([' ', 'i', 'n', ' '] ++ c.data) := by
  rw [formatClassTime_data_none]
  show (d ++ " at " ++ t ++ (if (c == "") = true then "" else " in " ++ c)).data = _
  rw [hc]
  simp only [Bool.false_eq_true, if_false]
  rw [String.data_append (d ++ " at " ++ t) (" in " ++ c),
    String.data_append (d ++ " at ") t, String.data_append d " at ",
    String.data_append " in " c]
  simp [data_at_four, data_in_four, List.append_assoc]

theorem cleanParts_pair {sep p q : List Char} (h1 : CleanBefore sep p (sep ++ q))
    (h2 : CleanBefore sep q []) : CleanParts sep [p, q] := by
  show CleanBefore sep p (sep ++ joinL sep [q]) ∧ CleanParts sep [q]
  exact ⟨h1, h2⟩

theorem split_at_pair {s d t : String}
    (hs : s.data = d.data ++ ([' ', 'a', 't', ' '] ++ t.data))
    (hd : hasSubL [' ', 'a', 't'] d.data = false)
    (ht : hasSubL [' ', 'a', 't'] t.data = false) :
    jsSplit " at " s = [d, t] := by
  show (jsSplitL (" at ").data s.data).map String.mk = [d, t]
  rw [data_at_four, hs]
  have hj : d.data ++ ([' ', 'a', 't', ' '] ++ t.data)
      = joinL [' ', 'a', 't', ' '] [d.data, t.data] := by
    simp [joinL, List.append_assoc]
  rw [hj, jsSplitL_joinL _ (by decide) _ (by simp)
    (cleanParts_pair (cleanBefore_at_left hd) (cleanBefore_at_right ht))]
  simp [mk_data]

theorem split_in_pair {s ti cr : String}
    (hs : s.data = ti.data ++ ([' ', 'i', 'n', ' '] ++ cr.data))
    (h1 : CleanBefore [' ', 'i', 'n', ' '] ti.data ([' ', 'i', 'n', ' '] ++ cr.data))
    (h2 : CleanBefore [' ', 'i', 'n', ' '] cr.data []) :
    jsSplit " in " s = [ti, cr] := by
  show (jsSplitL (" in ").data s.data).map String.mk = [ti, cr]
  rw [data_in_four, hs]
  have hj : ti.data ++ ([' ', 'i', 'n', ' '] ++ cr.data)
      = joinL [' ', 'i', 'n', ' '] [ti.data, cr.data] := by
    simp [joinL, List.append_assoc]
  rw [hj, jsSplitL_joinL _ (by decide) _ (by simp) (cleanParts_pair h1 h2)]
  simp [mk_data]

theorem decodeFragment_none {d t : String}
    (hd3 : hasSubL [' ', 'a', 't'] d.data = false)
    (ht3 : hasSubL [' ', 'a', 't'] t.data = false)
    (hdin : hasSubL [' ', 'i', 'n'] d.data = false)
    (htin : hasSubL [' ', 'i', 'n'] t.data = false)
    (htpre : ¬ ['i', 'n'] <+: t.data) :
    decodeClassTimeFragment (formatClassTime ⟨d, t, none⟩) = ⟨d, some t, none⟩ := by
  have hin : hasSubStr " in " (formatClassTime ⟨d, t, none⟩) = false := by
    show hasSubL (" in ").data (formatClassTime ⟨d, t, none⟩).data = false
    rw [data_in_four, formatClassTime_data_none]
    exact hasSub_in_timeInfo hdin htin htpre
  have hat : jsSplit " at " (formatClassTime ⟨d, t, none⟩) = [d, t] :=
    split_at_pair formatClassTime_data_none hd3 ht3
  rw [decodeClassTimeFragment, if_neg (by simp [hin])]
  simp [hat]

theorem decodeFragment_some {d t c : String} (hc : (c == "") = false)
    (hd3 : hasSubL [' ', 'a', 't'] d.data = false)
    (ht3 : hasSubL [' ', 'a', 't'] t.data = false)
    (hdin : hasSubL [' ', 'i', 'n'] d.data = false)
    (htin : hasSubL [' ', 'i', 'n'] t.data = false)
    (hcin : hasSubL [' ', 'i', 'n'] c.data = false)
    (htpre : ¬ ['i', 'n'] <+: t.data) :
    decodeClassTimeFragment (formatClassTime ⟨d, t, some c⟩) = ⟨d, some t, some c⟩ := by
  have hdata := formatClassTime_data_some (d := d) (t := t) hc
  have hin : hasSubStr " in " (formatClassTime ⟨d, t, some c⟩) = true := by
    show hasSubL (" in ").data (formatClassTime ⟨d, t, some c⟩).data = true
    rw [data_in_four, hdata]
    exact hasSubL_sandwich _ _ _
  have hsplit : jsSplit " in " (formatClassTime ⟨d, t, some c⟩)
      = [formatClassTime ⟨d, t, none⟩, c] := by
    refine split_in_pair hdata ?_ (cleanBefore_in_right hcin)
    rw [formatClassTime_data_none]
    exact cleanBefore_in_left hdin htin htpre
  have hat : jsSplit " at " (formatClassTime ⟨d, t, none⟩) = [d, t] :=
    split_at_pair formatClassTime_data_none hd3 ht3
  rw [decodeClassTimeFragment, if_pos (by simp [hin])]
  simp [hsplit, hat]

theorem okEntry_spec {ct : ClassTimeEntry} (h : okEntry ct = true) :
    okField ct.day = true ∧ okField ct.time = true ∧ ¬ ['i', 'n'] <+: ct.time.data ∧
      ∀ c, ct.classroom = some c → (c == "") = false ∧ okField c = true := by
  cases hcl : ct.classroom with
  | none =>
    simp only [okEntry, hcl, Bool.and_eq_true, Bool.not_eq_true'] at h
    refine ⟨h.1.1.1, h.1.1.2, ?_, by simp⟩
    intro hp
    have : (("in").data.isPrefixOf ct.time.data) = true :=
      List.isPrefixOf_iff_prefix.mpr hp
    rw [h.1.2] at this
    exact Bool.false_ne_true this
  | some c =>
    simp only [okEntry, hcl, Bool.and_eq_true, Bool.not_eq_true'] at h
    refine ⟨h.1.1.1, h.1.1.2, ?_, ?_⟩
    · intro hp
      have : (("in").data.isPrefixOf ct.time.data) = true :=
        List.isPrefixOf_iff_prefix.mpr hp
      rw [h.1.2] at this
      exact Bool.false_ne_true this
    · intro c₂ hc₂
      obtain rfl := Option.some.inj hc₂
      exact ⟨h.2.1, h.2.2⟩

theorem comma_free_frag {ct : ClassTimeEntry} (hok : okEntry ct = true) :
    ',' ∉ (formatClassTime ct).data := by
  obtain ⟨hday, htime, _, hcl⟩ := okEntry_spec hok
  have hday1 : hasSubL [','] ct.day.data = false := (okField_spec hday).1
  have htime1 : hasSubL [','] ct.time.data = false := (okField_spec htime).1
  obtain ⟨d, t, cl⟩ := ct
  cases cl with
  | none =>
    rw [formatClassTime_data_none]
    intro hmem
    rcases List.mem_append.mp hmem with hm | hm
    · exact absurd (hasSubL_singleton_iff.mpr hm) (by simp [hday1])
    · rcases List.mem_append.mp hm with hm₂ | hm₂
      · simp at hm₂
      · exact absurd (hasSubL_singleton_iff.mpr hm₂) (by simp [htime1])
  | some c =>
    obtain ⟨hc, hcok⟩ := hcl c rfl
    have hc1 : hasSubL [','] c.data = false := (okField_spec hcok).1
    rw [formatClassTime_data_some hc, formatClassTime_data_none]
    intro hmem
    rcases List.mem_append.mp hmem with hm | hm
    · rcases List.mem_append.mp hm with hm₂ | hm₂
      · exact absurd (hasSubL_singleton_iff.mpr hm₂) (by simp [hday1])
      · rcases List.mem_append.mp hm₂ with hm₃ | hm₃
        · simp at hm₃
        · exact absurd (hasSubL_singleton_iff.mpr hm₃) (by simp [htime1])
    · rcases List.mem_append.mp hm with hm₂ | hm₂
      · simp at hm₂
      · exact absurd (hasSubL_singleton_iff.mpr hm₂) (by simp [hc1])

theorem split_comma_frags {es : List ClassTimeEntry} (hne : es ≠ [])
    (hok : ∀ ct ∈ es, okEntry ct = true) :
    jsSplit ", " (formatClassTimes es) = es.map formatClassTime := by
  show (jsSplitL (", ").data (formatClassTimes es).data).map String.mk = _
  rw [data_comma_sp]
  have hdata : (formatClassTimes es).data
      = joinL [',', ' '] ((es.map formatClassTime).map String.data) := by
    rw [formatClassTimes, joinSep_data, data_comma_sp]
  rw [hdata, jsSplitL_joinL _ (by decide) _ (by simp [hne]) ?clean]
  · simp [List.map_map, Function.comp, mk_data]
  case clean =>
    apply cleanParts_of_forall
    intro p hp t
    simp only [List.map_map, List.mem_map, Function.comp] at hp
    obtain ⟨ct, hct, rfl⟩ := hp
    exact cleanBefore_comma (comma_free_frag (hok ct hct)) t

theorem roundtrip_entry {ct : ClassTimeEntry} (hok : okEntry ct = true) :
    decodeClassTimeFragment (formatClassTime ct) = toRaw ct := by
  obtain ⟨d, t, cl⟩ := ct
  obtain ⟨hday, htime, htpre, hcl⟩ := okEntry_spec hok
  obtain ⟨-, hday3, hdayin⟩ := okField_spec hday
  obtain ⟨-, htime3, htimein⟩ := okField_spec htime
  cases cl with
  | none => exact decodeFragment_none hday3 htime3 hdayin htimein htpre
  | some c =>
    obtain ⟨hc, hcok⟩ := hcl c rfl
    exact decodeFragment_some hc hday3 htime3 hdayin htimein (okField_spec hcok).2.2 htpre

theorem jsSplitL_no_sep {sep sL : List Char} (h : hasSubL sep sL = false) :
    jsSplitL sep sL = [sL] := by
  have hc : CleanBefore sep sL [] := by
    intro k hk hpre
    rw [List.append_nil] at hpre
    exact absurd (hasSubL_iff.mpr ⟨k, hpre⟩) (by simp [h])
  show jsSplitGoL sep sL 0 [] = [sL]
  have hgo := jsSplitGoL_clean sep [] [] hc
  simpa [jsSplitGoL] using hgo

/-- Claim C2 (amended): for every non-empty sequence of `ClassTimeEntry`
values in which each `day`, `time` and (present) `classroom` contains none
of the substrings `","`, `" at"`, `" in"`, the `time` does not start with
`"in"`, and every present classroom is non-empty, decoding the encoded
string yields the original sequence (under the embedding `toRaw` into the
decoder's output shape, whose `time`/`classroom` are optional). -/
theorem claim_C2 (es : List ClassTimeEntry) (hne : es ≠ [])
    (hok : ∀ ct ∈ es, okEntry ct = true) :
    parseClassTimes (formatClassTimes es) = es.map toRaw := by
  rw [parseClassTimes, split_comma_frags hne hok, List.map_map]
  exact List.map_congr_left (fun ct hct => roundtrip_entry (hok ct hct))

/-- Claim C2, counterexamples to the claim as stated: (a) the empty sequence
decodes to one garbage entry, not to `[]`; (b) a `day` of `"x at"` contains
none of the delimiter substrings `", "`, `" at "`, `" in "`, yet the
round trip garbles it; (c) a `time` of `"in R2"` likewise contains none of
the delimiter substrings, yet the round trip garbles the entry; (d) an
entry whose classroom is the empty string loses its classroom. -/
theorem claim_C2_counterexample :
    (parseClassTimes (formatClassTimes []) = [⟨"", none, none⟩] ∧
      ([] : List ClassTimeEntry).map toRaw = []) ∧
    ((hasSubStr ", " "x at" = false ∧ hasSubStr " at " "x at" = false ∧
        hasSubStr " in " "x at" = false ∧ hasSubStr ", " "10:00" = false ∧
        hasSubStr " at " "10:00" = false ∧ hasSubStr " in " "10:00" = false) ∧
      parseClassTimes (formatClassTimes [⟨"x at", "10:00", none⟩])
        = [⟨"x", some "at 10:00", none⟩] ∧
      [ClassTimeEntry.mk "x at" "10:00" none].map toRaw
        = [⟨"x at", some "10:00", none⟩]) ∧
    ((hasSubStr ", " "in R2" = false ∧ hasSubStr " at " "in R2" = false ∧
        hasSubStr " in " "in R2" = false) ∧
      parseClassTimes (formatClassTimes [⟨"Mon", "in R2", some "X"⟩])
        = [⟨"Mon at", none, some "R2"⟩] ∧
      [ClassTimeEntry.mk "Mon" "in R2" (some "X")].map toRaw
        = [⟨"Mon", some "in R2", some "X"⟩]) ∧
    (parseClassTimes (formatClassTimes [⟨"Mon", "10", some ""⟩])
        = [⟨"Mon", some "10", none⟩] ∧
      [ClassTimeEntry.mk "Mon" "10" (some "")].map toRaw
        = [⟨"Mon", some "10", some ""⟩]) := by
  decide

/-- Claim C2 witness: the amended round trip evaluated on a concrete
two-entry schedule. -/
theorem claim_C2_witness :
    (([⟨"Sunday", "10:00", some "R101"⟩, ⟨"Monday", "8:30", none⟩] :
        List ClassTimeEntry) ≠ [] ∧
      ∀ ct ∈ ([⟨"Sunday", "10:00", some "R101"⟩, ⟨"Monday", "8:30", none⟩] :
        List ClassTimeEntry), okEntry ct = true) ∧
    parseClassTimes (formatClassTimes
        [⟨"Sunday", "10:00", some "R101"⟩, ⟨"Monday", "8:30", none⟩])
      = [⟨"Sunday", some "10:00", some "R101"⟩, ⟨"Monday", some "8:30", none⟩] :=
  ⟨⟨by decide, by decide⟩,
    claim_C2 [⟨"Sunday", "10:00", some "R101"⟩, ⟨"Monday", "8:30", none⟩]
      (by decide) (by decide)⟩

/-- Claim C8 (amended): the decoder is total — for every stored string it
returns a list of entries, never a typed error; a fragment lacking both
`" at "` and `" in "` decodes to an entry whose `day` is the whole fragment
and whose `time` is undefined (`none`).  (As stated the claim is wrong for
fragments that lack `" at "` but contain `" in "`: there `day` is only the
part before the first `" in "`.) -/
theorem claim_C8 (s : String) (h1 : hasSubStr ", " s = false)
    (h2 : hasSubStr " at " s = false) (h3 : hasSubStr " in " s = false) :
    parseClassTimes s = [⟨s, none, none⟩] := by
  rw [parseClassTimes]
  have hsplit : jsSplit ", " s = [s] := by
    show (jsSplitL (", ").data s.data).map String.mk = [s]
    rw [jsSplitL_no_sep h1]
    simp [mk_data]
  rw [hsplit]
  simp only [List.map]
  rw [decodeClassTimeFragment, if_neg (by simp [h3])]
  have hat : jsSplit " at " s = [s] := by
    show (jsSplitL (" at ").data s.data).map String.mk = [s]
    rw [jsSplitL_no_sep h2]
    simp [mk_data]
  simp [hat]

/-- Claim C8, counterexample to the claim as stated: the fragment
`"Mon in R1"` lacks `" at "`, but its decoded `day` is `"Mon"`, not the whole
fragment. -/
theorem claim_C8_counterexample :
    hasSubStr " at " "Mon in R1" = false ∧
    decodeClassTimeFragment "Mon in R1" = ⟨"Mon", none, some "R1"⟩ ∧
    parseClassTimes "Mon in R1" = [⟨"Mon", none, some "R1"⟩] ∧
    ("Mon" : String) ≠ "Mon in R1" := by
  decide

/-- Claim C8 witness: the amended statement on the malformed fragment
`"Monday 10am"` (no `" at "`, no `" in "`): decodes to a garbage entry with
the whole fragment as `day` and no `time`, rather than a typed error. -/
theorem claim_C8_witness :
    (hasSubStr ", " "Monday 10am" = false ∧ hasSubStr " at " "Monday 10am" = false ∧
      hasSubStr " in " "Monday 10am" = false) ∧
    parseClassTimes "Monday 10am" = [⟨"Monday 10am", none, none⟩] :=
  ⟨⟨by decide, by decide, by decide⟩,
    claim_C8 "Monday 10am" (by decide) (by decide) (by decide)⟩

/-! ## Pipeline lemmas -/

theorem processRow_skip {r : String} {uSec : Option String} {i : Nat} {c : NewCourse}
    {e : RowEnv} (h : (r == "section_admin" && jsFalsy c.«section») = true) :
    processRow r uSec i c e =
      ⟨[⟨rowTag i c.code ++ "Section admin must specify a section for the course",
          true, false⟩], 0, []⟩ := by
  rw [processRow, if_pos h]

theorem processRow_dupErr {r : String} {uSec : Option String} {i : Nat} {c : NewCourse}
    {e : RowEnv} {m : String} (h : (r == "section_admin" && jsFalsy c.«section») = false)
    (hd : e.dupCheck = .storeErr m) :
    processRow r uSec i c e =
      ⟨[⟨rowTag i c.code ++ "Error checking for existing course: " ++ m, false, false⟩],
       0, [.dupCheck c.code (.storeErr m)]⟩ := by
  rw [processRow, if_neg (by simp [h]), hd]

theorem processRow_dupFound {r : String} {uSec : Option String} {i : Nat} {c : NewCourse}
    {e : RowEnv} (h : (r == "section_admin" && jsFalsy c.«section») = false)
    (hd : e.dupCheck = .found) :
    processRow r uSec i c e =
      ⟨[⟨rowTag i c.code ++ "A course with this code already exists", false, false⟩],
       0, [.dupCheck c.code .found]⟩ := by
  rw [processRow, if_neg (by simp [h]), hd]

theorem processRow_notFound {r : String} {uSec : Option String} {i : Nat} {c : NewCourse}
    {e : RowEnv} (h : (r == "section_admin" && jsFalsy c.«section») = false)
    (hd : e.dupCheck = .notFound) :
    processRow r uSec i c e =
      (match (resolveTeacher uSec i c e).thrown with
       | some m =>
         ⟨(resolveTeacher uSec i c e).outcomes ++ [⟨rowTag i c.code ++ m, false, false⟩], 0,
          .dupCheck c.code .notFound :: (resolveTeacher uSec i c e).calls⟩
       | none =>
         match e.courseInsert with
         | .storeErr m =>
           ⟨(resolveTeacher uSec i c e).outcomes ++ [⟨rowTag i c.code ++ m, false, false⟩], 0,
            .dupCheck c.code .notFound :: ((resolveTeacher uSec i c e).calls ++
              [.courseInsert (rowInsertRecord uSec c (resolveTeacher uSec i c e).teacherId)
                (.storeErr m)])⟩
         | .ok =>
           ⟨(resolveTeacher uSec i c e).outcomes, 1,
            .dupCheck c.code .notFound :: ((resolveTeacher uSec i c e).calls ++
              [.courseInsert (rowInsertRecord uSec c (resolveTeacher uSec i c e).teacherId)
                .ok])⟩
         | .threw m =>
           ⟨(resolveTeacher uSec i c e).outcomes ++ [⟨rowTag i c.code ++ m, false, false⟩], 0,
            .dupCheck c.code .notFound :: ((resolveTeacher uSec i c e).calls ++
              [.courseInsert (rowInsertRecord uSec c (resolveTeacher uSec i c e).teacherId)
                (.threw m)])⟩) := by
  rw [processRow, if_neg (by simp [h]), hd]

theorem resolveTeacher_off {uSec : Option String} {i : Nat} {c : NewCourse} {e : RowEnv}
    (h : (jsFalsy c.teacherId && !(c.teacher == "")) = false) :
    resolveTeacher uSec i c e = ⟨[], c.teacherId, [], none⟩ := by
  rw [resolveTeacher, if_neg (by simp [h])]

theorem resolveTeacher_lookupThrew {uSec : Option String} {i : Nat} {c : NewCourse}
    {e : RowEnv} {m : String} (h : (jsFalsy c.teacherId && !(c.teacher == "")) = true)
    (hl : e.teacherLookup = .threw m) :
    resolveTeacher uSec i c e =
      ⟨[], c.teacherId, [.teacherNameLookup c.teacher (.threw m)], some m⟩ := by
  rw [resolveTeacher, if_pos h, hl]

theorem resolveTeacher_createOk {uSec : Option String} {i : Nat} {c : NewCourse}
    {e : RowEnv} {newId : String} (h : (jsFalsy c.teacherId && !(c.teacher == "")) = true)
    (hl : e.teacherLookup = .ok false) (hi : e.teacherInsert = .ok newId) :
    resolveTeacher uSec i c e =
      ⟨[⟨"Created teacher \"" ++ c.teacher ++ "\" for course \"" ++ c.code ++ "\"",
          true, true⟩],
       some newId,
       [.teacherNameLookup c.teacher (.ok false),
        .teacherInsert ⟨c.teacher, "N/A", jsOr c.«section» (jsOr uSec none)⟩ (.ok newId)],
       none⟩ := by
  rw [resolveTeacher, if_pos h, hl, hi]

theorem resolveTeacher_createErr {uSec : Option String} {i : Nat} {c : NewCourse}
    {e : RowEnv} {m : String} (h : (jsFalsy c.teacherId && !(c.teacher == "")) = true)
    (hl : e.teacherLookup = .ok false) (hi : e.teacherInsert = .storeErr m) :
    resolveTeacher uSec i c e =
      ⟨[⟨rowTag i c.code ++ "Warning - Could not create teacher \"" ++ c.teacher ++
          "\": " ++ m, true, false⟩],
       c.teacherId,
       [.teacherNameLookup c.teacher (.ok false),
        .teacherInsert ⟨c.teacher, "N/A", jsOr c.«section» (jsOr uSec none)⟩ (.storeErr m)],
       none⟩ := by
  rw [resolveTeacher, if_pos h, hl, hi]

theorem resolveTeacher_createThrew {uSec : Option String} {i : Nat} {c : NewCourse}
    {e : RowEnv} {m : String} (h : (jsFalsy c.teacherId && !(c.teacher == "")) = true)
    (hl : e.teacherLookup = .ok false) (hi : e.teacherInsert = .threw m) :
    resolveTeacher uSec i c e =
      ⟨[⟨rowTag i c.code ++ "Warning - Failed to create teacher: " ++ m, true, false⟩],
       c.teacherId,
       [.teacherNameLookup c.teacher (.ok false),
        .teacherInsert ⟨c.teacher, "N/A", jsOr c.«section» (jsOr uSec none)⟩ (.threw m)],
       none⟩ := by
  rw [resolveTeacher, if_pos h, hl, hi]

theorem resolveTeacher_facts (uSec : Option String) (i : Nat) (c : NewCourse) (e : RowEnv) :
    (∀ o ∈ (resolveTeacher uSec i c e).outcomes, o.isWarning = true) ∧
    (∀ call ∈ (resolveTeacher uSec i c e).calls, isOkCourseInsert call = false) := by
  rcases e with ⟨dup, tl, tins, tf, cins⟩
  rw [resolveTeacher]
  split
  · cases tl with
    | threw m => simp [isOkCourseInsert]
    | ok b =>
      cases b with
      | false => cases tins <;> simp [isOkCourseInsert]
      | true =>
        cases tf with
        | ok oid => cases oid <;> simp [isOkCourseInsert]
        | storeErr m => simp [isOkCourseInsert]
        | threw m => simp [isOkCourseInsert]
  · simp

theorem resolveTeacher_filter_calls (uSec : Option String) (i : Nat) (c : NewCourse)
    (e : RowEnv) :
    (resolveTeacher uSec i c e).calls.filter isOkCourseInsert = [] :=
  List.filter_eq_nil_iff.mpr
    (fun a ha => by simp [(resolveTeacher_facts uSec i c e).2 a ha])

theorem processRow_count (r : String) (uSec : Option String) (i : Nat) (c : NewCourse)
    (e : RowEnv) :
    (processRow r uSec i c e).inc
      = ((processRow r uSec i c e).calls.filter isOkCourseInsert).length ∧
    (processRow r uSec i c e).inc ≤ 1 := by
  by_cases hskip : (r == "section_admin" && jsFalsy c.«section») = true
  · rw [processRow_skip hskip]; simp
  · have hskip2 : (r == "section_admin" && jsFalsy c.«section») = false := by
      simpa using hskip
    rcases hd : e.dupCheck with m | _ | _
    · rw [processRow_dupErr hskip2 hd]; simp [isOkCourseInsert]
    · rw [processRow_dupFound hskip2 hd]; simp [isOkCourseInsert]
    · rw [processRow_notFound hskip2 hd]
      rcases hth : (resolveTeacher uSec i c e).thrown with _ | m
      · rcases hci : e.courseInsert with m | _ | m <;>
          simp [List.filter_cons, List.filter_append, isOkCourseInsert,
            resolveTeacher_filter_calls]
      · simp [List.filter_cons, isOkCourseInsert, resolveTeacher_filter_calls]

theorem bulkLoop_cons (r : String) (uSec : Option String) (env : Nat → RowEnv)
    (c : NewCourse) (rest : List NewCourse) (i : Nat) :
    bulkLoop r uSec env (c :: rest) i =
      ((processRow r uSec i c (env i)).outcomes ++ (bulkLoop r uSec env rest (i + 1)).1,
       (processRow r uSec i c (env i)).inc + (bulkLoop r uSec env rest (i + 1)).2.1,
       (processRow r uSec i c (env i)).calls ++ (bulkLoop r uSec env rest (i + 1)).2.2) :=
  rfl

theorem bulkLoop_success (r : String) (uSec : Option String) (env : Nat → RowEnv) :
    ∀ (courses : List NewCourse) (i : Nat),
      (bulkLoop r uSec env courses i).2.1
        = ((bulkLoop r uSec env courses i).2.2.filter isOkCourseInsert).length ∧
      (bulkLoop r uSec env courses i).2.1 ≤ courses.length := by
  intro courses
  induction courses with
  | nil => intro i; simp [bulkLoop]
  | cons c rest ih =>
    intro i
    obtain ⟨h1, h2⟩ := ih (i + 1)
    obtain ⟨g1, g2⟩ := processRow_count r uSec i c (env i)
    constructor
    · simp only [bulkLoop_cons, List.filter_append, List.length_append]
      rw [g1, h1]
    · simp only [bulkLoop_cons, List.length_cons]
      omega

theorem bulkLoop_append (r : String) (uSec : Option String) (env : Nat → RowEnv) :
    ∀ (xs ys : List NewCourse) (i : Nat),
      bulkLoop r uSec env (xs ++ ys) i =
        ((bulkLoop r uSec env xs i).1 ++ (bulkLoop r uSec env ys (i + xs.length)).1,
         (bulkLoop r uSec env xs i).2.1 + (bulkLoop r uSec env ys (i + xs.length)).2.1,
         (bulkLoop r uSec env xs i).2.2 ++ (bulkLoop r uSec env ys (i + xs.length)).2.2) := by
  intro xs
  induction xs with
  | nil => intro ys i; simp [bulkLoop]
  | cons c xs ih =>
    intro ys i
    rw [List.cons_append, bulkLoop_cons, ih ys (i + 1), bulkLoop_cons]
    simp only [List.length_cons]
    have hidx : i + 1 + xs.length = i + (xs.length + 1) := by omega
    rw [hidx]
    simp [List.append_assoc, Nat.add_assoc]

theorem bulkLoop_outcomes (r : String) (uSec : Option String) (env : Nat → RowEnv) :
    ∀ (courses : List NewCourse) (i : Nat),
      (bulkLoop r uSec env courses i).1 =
        (List.enumFrom i courses).flatMap
          (fun p => (processRow r uSec p.1 p.2 (env p.1)).outcomes) := by
  intro courses
  induction courses with
  | nil => intro i; rfl
  | cons c rest ih =>
    intro i
    rw [bulkLoop_cons]
    simp only [List.enumFrom, List.flatMap_cons]
    rw [ih (i + 1)]

theorem bulkImport_permitted {u : UserSession} {r : String} (hrole : u.role = some r)
    (hr : r = "admin" ∨ r = "section_admin") (env : Nat → RowEnv)
    (courses : List NewCourse) :
    bulkImportCourses (some u) env courses =
      ⟨(bulkLoop r u.sectionId env courses 0).2.1,
       (bulkLoop r u.sectionId env courses 0).1,
       (bulkLoop r u.sectionId env courses 0).2.2⟩ := by
  have hperm : (r == "" || (r != "admin" && r != "section_admin")) = false := by
    rcases hr with rfl | rfl <;> rfl
  simp only [bulkImportCourses, hrole]
  rw [if_neg (by simp [hperm])]

theorem bulk_at_row {u : UserSession} {r : String} (hrole : u.role = some r)
    (hr : r = "admin" ∨ r = "section_admin") (env : Nat → RowEnv)
    (courses : List NewCourse) (i : Nat) (hi : i < courses.length) :
    bulkImportCourses (some u) env courses =
      ⟨(bulkLoop r u.sectionId env (courses.take i) 0).2.1
         + ((processRow r u.sectionId i courses[i] (env i)).inc
           + (bulkLoop r u.sectionId env (courses.drop (i + 1)) (i + 1)).2.1),
       (bulkLoop r u.sectionId env (courses.take i) 0).1
         ++ ((processRow r u.sectionId i courses[i] (env i)).outcomes
           ++ (bulkLoop r u.sectionId env (courses.drop (i + 1)) (i + 1)).1),
       (bulkLoop r u.sectionId env (courses.take i) 0).2.2
         ++ ((processRow r u.sectionId i courses[i] (env i)).calls
           ++ (bulkLoop r u.sectionId env (courses.drop (i + 1)) (i + 1)).2.2)⟩ := by
  rw [bulkImport_permitted hrole hr env courses]
  have hsplitc : courses = courses.take i ++ courses[i] :: courses.drop (i + 1) := by
    conv_lhs => rw [← List.take_append_drop i courses, List.drop_eq_getElem_cons hi]
  have hlen : (courses.take i).length = i := by rw [List.length_take]; omega
  conv_lhs => rw [hsplitc]
  rw [bulkLoop_append r u.sectionId env (courses.take i) (courses[i] :: courses.drop (i + 1)) 0]
  simp only [bulkLoop, hlen, Nat.zero_add]

theorem resolveTeacher_filter_outcomes (uSec : Option String) (i : Nat) (c : NewCourse)
    (e : RowEnv) :
    (resolveTeacher uSec i c e).outcomes.filter isHardError = [] :=
  List.filter_eq_nil_iff.mpr
    (fun o ho => by simp [isHardError, (resolveTeacher_facts uSec i c e).1 o ho])

/-- Claim C1 (confirmed): for every candidate list and every session whose
role is absent or is neither `admin` nor `section_admin`, `bulkImportCourses`
aborts the whole batch before processing any row: the report has
`success = 0` and exactly one hard-error outcome, and no duplicate-check,
teacher, or insert call is issued for any candidate (empty call trace). -/
theorem claim_C1 (user : Option UserSession) (env : Nat → RowEnv)
    (courses : List NewCourse)
    (h : user.bind UserSession.role = none ∨
      (user.bind UserSession.role ≠ some "admin" ∧
        user.bind UserSession.role ≠ some "section_admin")) :
    bulkImportCourses user env courses =
      ⟨0, [⟨"Bulk import failed: Permission denied: Only admins and section admins can import courses",
            false, false⟩], []⟩ := by
  rcases user with _ | u
  · rfl
  · rcases hrole : u.role with _ | r
    · simp [bulkImportCourses, hrole, permissionDeniedReport]
    · rw [show (some u).bind UserSession.role = u.role from rfl, hrole] at h
      rcases h with h | ⟨h1, h2⟩
    -- the role is present here, so only the second disjunct is possible
      · exact absurd h (by simp)
      · have hr1 : r ≠ "admin" := fun hh => h1 (congrArg some hh)
        have hr2 : r ≠ "section_admin" := fun hh => h2 (congrArg some hh)
        simp [bulkImportCourses, hrole, permissionDeniedReport, hr1, hr2]

/-- Claim C1 witness: a session with role `user` aborts a one-candidate
batch with the single permission outcome and an empty call trace. -/
theorem claim_C1_witness :
    ((some (⟨"u1", some "user", none⟩ : UserSession)).bind UserSession.role = none ∨
      ((some (⟨"u1", some "user", none⟩ : UserSession)).bind UserSession.role ≠ some "admin" ∧
        (some (⟨"u1", some "user", none⟩ : UserSession)).bind UserSession.role ≠ some "section_admin")) ∧
    bulkImportCourses (some ⟨"u1", some "user", none⟩)
        (fun _ => ⟨.notFound, .ok false, .ok "T1", .ok none, .ok⟩)
        [⟨"Algorithms", "CSE101", "Dr. X", [], none, none, none, 3, none, none⟩] =
      ⟨0, [⟨"Bulk import failed: Permission denied: Only admins and section admins can import courses",
            false, false⟩], []⟩ :=
  ⟨Or.inr ⟨by decide, by decide⟩,
    claim_C1 (some ⟨"u1", some "user", none⟩)
      (fun _ => ⟨.notFound, .ok false, .ok "T1", .ok none, .ok⟩)
      [⟨"Algorithms", "CSE101", "Dr. X", [], none, none, none, 3, none, none⟩]
      (Or.inr ⟨by decide, by decide⟩)⟩

/-- Claim C9 (confirmed): for every candidate list and every session,
`0 ≤ success ≤ length candidates`, and `success` equals exactly the number
of course-insert calls that returned without error (skipped, duplicate and
failed rows issue no successful insert call and never increment it; nothing
decrements it). -/
theorem claim_C9 (user : Option UserSession) (env : Nat → RowEnv)
    (courses : List NewCourse) :
    0 ≤ (bulkImportCourses user env courses).success ∧
    (bulkImportCourses user env courses).success ≤ courses.length ∧
    (bulkImportCourses user env courses).success
      = ((bulkImportCourses user env courses).calls.filter isOkCourseInsert).length := by
  refine ⟨Nat.zero_le _, ?_⟩
  rcases user with _ | u
  · simp [bulkImportCourses, permissionDeniedReport]
  · rcases hrole : u.role with _ | r
    · simp [bulkImportCourses, hrole, permissionDeniedReport]
    · by_cases hperm : (r == "" || (r != "admin" && r != "section_admin")) = true
      · simp [bulkImportCourses, hrole, hperm, permissionDeniedReport]
      · simp only [bulkImportCourses, hrole]
        rw [if_neg hperm]
        obtain ⟨h1, h2⟩ := bulkLoop_success r u.sectionId env courses 0
        exact ⟨h2, h1⟩

/-- Claim C10 (confirmed): the errors list is the concatenation, in
candidate input order, of each row's outcomes; one row can contribute more
than one outcome: a row whose teacher is auto-created gets a soft-warning
entry flagged as informational success even though the row is counted in
`success`, and when its insert then fails it additionally gets a hard-error
entry — so the errors list can hold entries for successful rows and more
entries than failed rows. -/
theorem claim_C10 (u : UserSession) (r : String) (hrole : u.role = some r)
    (hr : r = "admin" ∨ r = "section_admin") (env : Nat → RowEnv)
    (courses : List NewCourse) :
    (bulkImportCourses (some u) env courses).errors
      = (List.enumFrom 0 courses).flatMap
          (fun p => (processRow r u.sectionId p.1 p.2 (env p.1)).outcomes) ∧
    bulkImportCourses (some ⟨"a1", some "admin", some "S1"⟩)
        (fun _ => ⟨.notFound, .ok false, .ok "T9", .ok none, .ok⟩)
        [⟨"Algo", "CSE101", "Dr. X", [], none, none, none, 3, none, none⟩]
      = ⟨1, [⟨"Created teacher \"Dr. X\" for course \"CSE101\"", true, true⟩],
         [.dupCheck "CSE101" .notFound, .teacherNameLookup "Dr. X" (.ok false),
          .teacherInsert ⟨"Dr. X", "N/A", some "S1"⟩ (.ok "T9"),
          .courseInsert ⟨"Algo", "CSE101", "Dr. X", "", none, none, none, 3, some "S1", some "T9"⟩ .ok]⟩ ∧
    bulkImportCourses (some ⟨"a1", some "admin", some "S1"⟩)
        (fun _ => ⟨.notFound, .ok false, .ok "T9", .ok none, .storeErr "insert failed"⟩)
        [⟨"Algo", "CSE101", "Dr. X", [], none, none, none, 3, none, none⟩]
      = ⟨0, [⟨"Created teacher \"Dr. X\" for course \"CSE101\"", true, true⟩,
             ⟨"Course #1 (CSE101): insert failed", false, false⟩],
         [.dupCheck "CSE101" .notFound, .teacherNameLookup "Dr. X" (.ok false),
          .teacherInsert ⟨"Dr. X", "N/A", some "S1"⟩ (.ok "T9"),
          .courseInsert ⟨"Algo", "CSE101", "Dr. X", "", none, none, none, 3, some "S1", some "T9"⟩
            (.storeErr "insert failed")]⟩ := by
  refine ⟨?_, by decide, by decide⟩
  rw [bulkImport_permitted hrole hr env courses]
  exact bulkLoop_outcomes r u.sectionId env courses 0

/-- Claim C10 witness: the ordering decomposition evaluated on a concrete
two-candidate batch. -/
theorem claim_C10_witness :
    ((⟨"a1", some "admin", some "S1"⟩ : UserSession).role = some "admin" ∧
      ("admin" = "admin" ∨ "admin" = "section_admin")) ∧
    (bulkImportCourses (some ⟨"a1", some "admin", some "S1"⟩)
        (fun _ => ⟨.found, .ok false, .ok "T9", .ok none, .ok⟩)
        [⟨"Algo", "CSE101", "Dr. X", [], none, none, none, 3, none, none⟩,
         ⟨"Data", "CSE102", "Dr. Y", [], none, none, none, 3, none, none⟩]).errors
      = (List.enumFrom 0
          [⟨"Algo", "CSE101", "Dr. X", [], none, none, none, 3, none, none⟩,
           ⟨"Data", "CSE102", "Dr. Y", [], none, none, none, 3, none, none⟩]).flatMap
          (fun p => (processRow "admin" (some "S1") p.1 p.2
            ((fun _ => (⟨.found, .ok false, .ok "T9", .ok none, .ok⟩ : RowEnv)) p.1)).outcomes) :=
  ⟨⟨rfl, Or.inl rfl⟩,
    (claim_C10 ⟨"a1", some "admin", some "S1"⟩ "admin" rfl (Or.inl rfl)
      (fun _ => ⟨.found, .ok false, .ok "T9", .ok none, .ok⟩)
      [⟨"Algo", "CSE101", "Dr. X", [], none, none, none, 3, none, none⟩,
       ⟨"Data", "CSE102", "Dr. Y", [], none, none, none, 3, none, none⟩]).1⟩

/-- Claim C3 (amended): with a permitted role the batch always decomposes
row by row, so no row's failure aborts the remaining candidates; an
exception that reaches the row boundary — a duplicate-check store error
(re-thrown by the code), a throwing teacher-existence check, or a throwing
course insert — is caught there and converted into exactly one hard-error
outcome carrying the row's index, code and message.  (As stated the claim
is wrong for teacher-creation and teacher-id-fetch exceptions: inner
handlers convert the former into a soft warning and swallow the latter, and
the row still proceeds to the insert.) -/
theorem claim_C3 (u : UserSession) (r : String) (hrole : u.role = some r)
    (hr : r = "admin" ∨ r = "section_admin") (env : Nat → RowEnv)
    (courses : List NewCourse) (i : Nat) (hi : i < courses.length) :
    (bulkImportCourses (some u) env courses =
      ⟨(bulkLoop r u.sectionId env (courses.take i) 0).2.1
         + ((processRow r u.sectionId i courses[i] (env i)).inc
           + (bulkLoop r u.sectionId env (courses.drop (i + 1)) (i + 1)).2.1),
       (bulkLoop r u.sectionId env (courses.take i) 0).1
         ++ ((processRow r u.sectionId i courses[i] (env i)).outcomes
           ++ (bulkLoop r u.sectionId env (courses.drop (i + 1)) (i + 1)).1),
       (bulkLoop r u.sectionId env (courses.take i) 0).2.2
         ++ ((processRow r u.sectionId i courses[i] (env i)).calls
           ++ (bulkLoop r u.sectionId env (courses.drop (i + 1)) (i + 1)).2.2)⟩) ∧
    (∀ m, (r == "section_admin" && jsFalsy courses[i].«section») = false →
      (env i).dupCheck = .storeErr m →
      processRow r u.sectionId i courses[i] (env i) =
        ⟨[⟨rowTag i courses[i].code ++ "Error checking for existing course: " ++ m,
            false, false⟩], 0, [.dupCheck courses[i].code (.storeErr m)]⟩) ∧
    (∀ m, (r == "section_admin" && jsFalsy courses[i].«section») = false →
      (env i).dupCheck = .notFound → (env i).teacherLookup = .threw m →
      jsFalsy courses[i].teacherId = true → courses[i].teacher ≠ "" →
      processRow r u.sectionId i courses[i] (env i) =
        ⟨[⟨rowTag i courses[i].code ++ m, false, false⟩], 0,
         [.dupCheck courses[i].code .notFound,
          .teacherNameLookup courses[i].teacher (.threw m)]⟩) ∧
    (∀ m, (r == "section_admin" && jsFalsy courses[i].«section») = false →
      (env i).dupCheck = .notFound → (env i).courseInsert = .threw m →
      (resolveTeacher u.sectionId i courses[i] (env i)).thrown = none →
      (processRow r u.sectionId i courses[i] (env i)).outcomes.filter isHardError
          = [⟨rowTag i courses[i].code ++ m, false, false⟩] ∧
        (processRow r u.sectionId i courses[i] (env i)).inc = 0) := by
  refine ⟨bulk_at_row hrole hr env courses i hi, ?_, ?_, ?_⟩
  · intro m hskip hd
    exact processRow_dupErr hskip hd
  · intro m hskip hd hl htid hname
    rw [processRow_notFound hskip hd,
      resolveTeacher_lookupThrew (by simp [htid, hname]) hl]
    simp
  · intro m hskip hd hci hth
    rw [processRow_notFound hskip hd]
    rcases hth2 : (resolveTeacher u.sectionId i courses[i] (env i)).thrown with _ | m2
    · rcases hci2 : (env i).courseInsert with m2 | _ | m2
      · exact absurd (hci2.symm.trans hci) (by simp)
      · exact absurd (hci2.symm.trans hci) (by simp)
      · obtain rfl : m2 = m := by
          have := hci2.symm.trans hci
          exact (CInsRes.threw.injEq m2 m).mp (by simpa using this)
        simp [List.filter_append, isHardError, resolveTeacher_filter_outcomes]
    · exact absurd (hth2.symm.trans hth) (by simp)

/-- Claim C3, counterexample to the claim as stated: an exception thrown
during implicit teacher creation (part of teacher resolution) is caught by
an inner handler and becomes a soft warning, not a hard-error outcome; the
row still proceeds and is counted as a success. -/
theorem claim_C3_counterexample :
    bulkImportCourses (some ⟨"a1", some "admin", none⟩)
        (fun _ => ⟨.notFound, .ok false, .threw "network down", .ok none, .ok⟩)
        [⟨"Algo", "CSE101", "Dr. X", [], none, none, none, 3, none, none⟩]
      = ⟨1, [⟨"Course #1 (CSE101): Warning - Failed to create teacher: network down",
              true, false⟩],
         [.dupCheck "CSE101" .notFound, .teacherNameLookup "Dr. X" (.ok false),
          .teacherInsert ⟨"Dr. X", "N/A", none⟩ (.threw "network down"),
          .courseInsert ⟨"Algo", "CSE101", "Dr. X", "", none, none, none, 3, none, none⟩ .ok]⟩ ∧
    (bulkImportCourses (some ⟨"a1", some "admin", none⟩)
        (fun _ => ⟨.notFound, .ok false, .threw "network down", .ok none, .ok⟩)
        [⟨"Algo", "CSE101", "Dr. X", [], none, none, none, 3, none, none⟩]).errors.filter
      isHardError = [] := by
  decide

/-- Claim C3 witness: the amended statement evaluated on a concrete
two-candidate batch where row 0's duplicate check throws; row 1 is still
processed. -/
theorem claim_C3_witness :
    ((⟨"a1", some "admin", none⟩ : UserSession).role = some "admin" ∧
      ("admin" = "admin" ∨ "admin" = "section_admin") ∧
      (0 : Nat) < ([⟨"Algo", "CSE101", "Dr. X", [], none, none, none, 3, none, none⟩,
        ⟨"Data", "CSE102", "Dr. Y", [], none, none, none, 3, none, none⟩] :
          List NewCourse).length) ∧
    bulkImportCourses (some ⟨"a1", some "admin", none⟩)
        (fun _ => ⟨.storeErr "boom", .ok false, .ok "T1", .ok none, .ok⟩)
        [⟨"Algo", "CSE101", "Dr. X", [], none, none, none, 3, none, none⟩,
         ⟨"Data", "CSE102", "Dr. Y", [], none, none, none, 3, none, none⟩]
      = ⟨(bulkLoop "admin" none (fun _ => ⟨.storeErr "boom", .ok false, .ok "T1", .ok none, .ok⟩)
            (([⟨"Algo", "CSE101", "Dr. X", [], none, none, none, 3, none, none⟩,
               ⟨"Data", "CSE102", "Dr. Y", [], none, none, none, 3, none, none⟩] :
                List NewCourse).take 0) 0).2.1
          + ((processRow "admin" none 0
               ([⟨"Algo", "CSE101", "Dr. X", [], none, none, none, 3, none, none⟩,
                 ⟨"Data", "CSE102", "Dr. Y", [], none, none, none, 3, none, none⟩] :
                  List NewCourse)[0]
               ⟨.storeErr "boom", .ok false, .ok "T1", .ok none, .ok⟩).inc
            + (bulkLoop "admin" none (fun _ => ⟨.storeErr "boom", .ok false, .ok "T1", .ok none, .ok⟩)
                (([⟨"Algo", "CSE101", "Dr. X", [], none, none, none, 3, none, none⟩,
                   ⟨"Data", "CSE102", "Dr. Y", [], none, none, none, 3, none, none⟩] :
                    List NewCourse).drop 1) 1).2.1),
         (bulkLoop "admin" none (fun _ => ⟨.storeErr "boom", .ok false, .ok "T1", .ok none, .ok⟩)
            (([⟨"Algo", "CSE101", "Dr. X", [], none, none, none, 3, none, none⟩,
               ⟨"Data", "CSE102", "Dr. Y", [], none, none, none, 3, none, none⟩] :
                List NewCourse).take 0) 0).1
          ++ ((processRow "admin" none 0
               ([⟨"Algo", "CSE101", "Dr. X", [], none, none, none, 3, none, none⟩,
                 ⟨"Data", "CSE102", "Dr. Y", [], none, none, none, 3, none, none⟩] :
                  List NewCourse)[0]
               ⟨.storeErr "boom", .ok false, .ok "T1", .ok none, .ok⟩).outcomes
            ++ (bulkLoop "admin" none (fun _ => ⟨.storeErr "boom", .ok false, .ok "T1", .ok none, .ok⟩)
                (([⟨"Algo", "CSE101", "Dr. X", [], none, none, none, 3, none, none⟩,
                   ⟨"Data", "CSE102", "Dr. Y", [], none, none, none, 3, none, none⟩] :
                    List NewCourse).drop 1) 1).1),
         (bulkLoop "admin" none (fun _ => ⟨.storeErr "boom", .ok false, .ok "T1", .ok none, .ok⟩)
            (([⟨"Algo", "CSE101", "Dr. X", [], none, none, none, 3, none, none⟩,
               ⟨"Data", "CSE102", "Dr. Y", [], none, none, none, 3, none, none⟩] :
                List NewCourse).take 0) 0).2.2
          ++ ((processRow "admin" none 0
               ([⟨"Algo", "CSE101", "Dr. X", [], none, none, none, 3, none, none⟩,
                 ⟨"Data", "CSE102", "Dr. Y", [], none, none, none, 3, none, none⟩] :
                  List NewCourse)[0]
               ⟨.storeErr "boom", .ok false, .ok "T1", .ok none, .ok⟩).calls
            ++ (bulkLoop "admin" none (fun _ => ⟨.storeErr "boom", .ok false, .ok "T1", .ok none, .ok⟩)
                (([⟨"Algo", "CSE101", "Dr. X", [], none, none, none, 3, none, none⟩,
                   ⟨"Data", "CSE102", "Dr. Y", [], none, none, none, 3, none, none⟩] :
                    List NewCourse).drop 1) 1).2.2)⟩ :=
  ⟨⟨rfl, Or.inl rfl, by decide⟩,
    (claim_C3 ⟨"a1", some "admin", none⟩ "admin" rfl (Or.inl rfl)
      (fun _ => ⟨.storeErr "boom", .ok false, .ok "T1", .ok none, .ok⟩)
      [⟨"Algo", "CSE101", "Dr. X", [], none, none, none, 3, none, none⟩,
       ⟨"Data", "CSE102", "Dr. Y", [], none, none, none, 3, none, none⟩] 0 (by decide)).1⟩

/-- Claim C4 (confirmed): a candidate whose code the store reports as
already existing yields exactly one hard-error outcome whose message says
the code already exists; the row is skipped (no teacher or insert call,
success contribution 0).  If the existence query itself returns a store
error, the row is likewise skipped with one hard-error outcome.  The batch
report decomposes around the row, so `success` is exactly the contribution
of the other rows. -/
theorem claim_C4 (u : UserSession) (r : String) (hrole : u.role = some r)
    (hr : r = "admin" ∨ r = "section_admin") (env : Nat → RowEnv)
    (courses : List NewCourse) (i : Nat) (hi : i < courses.length)
    (hskip : (r == "section_admin" && jsFalsy courses[i].«section») = false) :
    ((env i).dupCheck = .found →
      processRow r u.sectionId i courses[i] (env i) =
        ⟨[⟨rowTag i courses[i].code ++ "A course with this code already exists",
            false, false⟩], 0, [.dupCheck courses[i].code .found]⟩) ∧
    (∀ m, (env i).dupCheck = .storeErr m →
      processRow r u.sectionId i courses[i] (env i) =
        ⟨[⟨rowTag i courses[i].code ++ "Error checking for existing course: " ++ m,
            false, false⟩], 0, [.dupCheck courses[i].code (.storeErr m)]⟩) ∧
    bulkImportCourses (some u) env courses =
      ⟨(bulkLoop r u.sectionId env (courses.take i) 0).2.1
         + ((processRow r u.sectionId i courses[i] (env i)).inc
           + (bulkLoop r u.sectionId env (courses.drop (i + 1)) (i + 1)).2.1),
       (bulkLoop r u.sectionId env (courses.take i) 0).1
         ++ ((processRow r u.sectionId i courses[i] (env i)).outcomes
           ++ (bulkLoop r u.sectionId env (courses.drop (i + 1)) (i + 1)).1),
       (bulkLoop r u.sectionId env (courses.take i) 0).2.2
         ++ ((processRow r u.sectionId i courses[i] (env i)).calls
           ++ (bulkLoop r u.sectionId env (courses.drop (i + 1)) (i + 1)).2.2)⟩ :=
  ⟨fun hd => processRow_dupFound hskip hd,
   fun _ hd => processRow_dupErr hskip hd,
   bulk_at_row hrole hr env courses i hi⟩

/-- Claim C4 witness: a duplicate code on the only candidate gives one hard
"already exists" outcome, no insert call, and `success = 0`. -/
theorem claim_C4_witness :
    ((⟨"a1", some "admin", none⟩ : UserSession).role = some "admin" ∧
      ("admin" = "admin" ∨ "admin" = "section_admin") ∧
      (0 : Nat) < ([⟨"Algo", "CSE101", "Dr. X", [], none, none, none, 3, none, none⟩] :
        List NewCourse).length ∧
      (("admin" : String) == "section_admin" &&
        jsFalsy (⟨"Algo", "CSE101", "Dr. X", [], none, none, none, 3, none, none⟩ :
          NewCourse).«section») = false) ∧
    processRow "admin" none 0
        ([⟨"Algo", "CSE101", "Dr. X", [], none, none, none, 3, none, none⟩] :
          List NewCourse)[0]
        ⟨.found, .ok false, .ok "T1", .ok none, .ok⟩
      = ⟨[⟨"Course #1 (CSE101): A course with this code already exists", false, false⟩],
         0, [.dupCheck "CSE101" .found]⟩ :=
  ⟨⟨rfl, Or.inl rfl, by decide, by decide⟩,
    (claim_C4 ⟨"a1", some "admin", none⟩ "admin" rfl (Or.inl rfl)
      (fun _ => ⟨.found, .ok false, .ok "T1", .ok none, .ok⟩)
      [⟨"Algo", "CSE101", "Dr. X", [], none, none, none, 3, none, none⟩]
      0 (by decide) (by decide)).1 rfl⟩

/-- Claim C5 (confirmed): a candidate with no (truthy) teacher id but a
non-empty teacher name with no existing case-insensitive match
(`checkTeacherNameExists`, modelled from the spec, returns `false`) makes
the pipeline create a teacher with that name, the placeholder phone
`"N/A"`, and department = candidate's section, falling back to the
session's own section when the candidate's is absent or empty; on creation
success it records one soft-warning outcome flagged as informational
success and inserts the course with `teacher_id` equal to the new id. -/
theorem claim_C5 (uSec : Option String) (r : String) (i : Nat) (course : NewCourse)
    (e : RowEnv) (table : List TeacherRecord) (newId : String)
    (hskip : (r == "section_admin" && jsFalsy course.«section») = false)
    (hdup : e.dupCheck = .notFound)
    (htid : jsFalsy course.teacherId = true)
    (hname : course.teacher ≠ "")
    (hmatch : checkTeacherNameExists table course.teacher = false)
    (hlookup : e.teacherLookup = .ok (checkTeacherNameExists table course.teacher))
    (htins : e.teacherInsert = .ok newId)
    (hcins : e.courseInsert = .ok) :
    processRow r uSec i course e =
      ⟨[⟨"Created teacher \"" ++ course.teacher ++ "\" for course \"" ++
          course.code ++ "\"", true, true⟩],
       1,
       [.dupCheck course.code .notFound,
        .teacherNameLookup course.teacher (.ok false),
        .teacherInsert ⟨course.teacher, "N/A", jsOr course.«section» (jsOr uSec none)⟩
          (.ok newId),
        .courseInsert (rowInsertRecord uSec course (some newId)) .ok]⟩ ∧
    (rowInsertRecord uSec course (some newId)).teacher_id = some newId ∧
    (jsFalsy course.«section» = false →
      jsOr course.«section» (jsOr uSec none) = course.«section») ∧
    (jsFalsy course.«section» = true → jsFalsy uSec = false →
      jsOr course.«section» (jsOr uSec none) = uSec) := by
  rw [hmatch] at hlookup
  refine ⟨?_, rfl, ?_, ?_⟩
  · rw [processRow_notFound hskip hdup,
      resolveTeacher_createOk (by simp [htid, hname]) hlookup htins]
    rcases hci : e.courseInsert with m | _ | m
    · exact absurd (hci.symm.trans hcins) (by simp)
    · simp
    · exact absurd (hci.symm.trans hcins) (by simp)
  · intro h
    simp [jsOr, h]
  · intro h1 h2
    simp [jsOr, h1, h2]

/-- Claim C5 witness: a concrete candidate with teacher name `"Dr. X"`, not
matched (case-insensitively) in a table containing only `"dr. old"`, with a
section-less candidate under a session section `"S1"`. -/
theorem claim_C5_witness :
    ((("admin" : String) == "section_admin" &&
        jsFalsy (⟨"Algo", "CSE101", "Dr. X", [], none, none, none, 3, none, none⟩ :
          NewCourse).«section») = false ∧
      checkTeacherNameExists [⟨"dr. old", "123", none⟩] "Dr. X" = false ∧
      jsFalsy (none : Option String) = true) ∧
    processRow "admin" (some "S1") 0
        ⟨"Algo", "CSE101", "Dr. X", [], none, none, none, 3, none, none⟩
        ⟨.notFound, .ok (checkTeacherNameExists [⟨"dr. old", "123", none⟩] "Dr. X"),
         .ok "T77", .ok none, .ok⟩
      = ⟨[⟨"Created teacher \"Dr. X\" for course \"CSE101\"", true, true⟩],
         1,
         [.dupCheck "CSE101" .notFound,
          .teacherNameLookup "Dr. X" (.ok false),
          .teacherInsert ⟨"Dr. X", "N/A", some "S1"⟩ (.ok "T77"),
          .courseInsert ⟨"Algo", "CSE101", "Dr. X", "", none, none, none, 3, some "S1",
            some "T77"⟩ .ok]⟩ :=
  ⟨⟨by decide, by decide, by decide⟩, by
    have h := (claim_C5 (some "S1") "admin" 0
      ⟨"Algo", "CSE101", "Dr. X", [], none, none, none, 3, none, none⟩
      ⟨.notFound, .ok (checkTeacherNameExists [⟨"dr. old", "123", none⟩] "Dr. X"),
       .ok "T77", .ok none, .ok⟩
      [⟨"dr. old", "123", none⟩] "T77"
      (by decide) rfl (by decide) (by decide) (by decide) rfl rfl rfl).1
    exact h.trans (by decide)⟩

/-- Claim C6 (confirmed): when the implicit teacher creation fails — an
in-band store error or a thrown exception — the pipeline records one
soft-warning outcome describing the failure and still inserts the course
with the candidate's (falsy) teacher id; the teacher failure alone never
produces a hard error nor excludes the row from the success count. -/
theorem claim_C6 (uSec : Option String) (r : String) (i : Nat) (course : NewCourse)
    (e : RowEnv)
    (hskip : (r == "section_admin" && jsFalsy course.«section») = false)
    (hdup : e.dupCheck = .notFound)
    (htid : jsFalsy course.teacherId = true)
    (hname : course.teacher ≠ "")
    (hlookup : e.teacherLookup = .ok false)
    (hcins : e.courseInsert = .ok) :
    (∀ m, e.teacherInsert = .storeErr m →
      processRow r uSec i course e =
        ⟨[⟨rowTag i course.code ++ "Warning - Could not create teacher \"" ++
            course.teacher ++ "\": " ++ m, true, false⟩],
         1,
         [.dupCheck course.code .notFound,
          .teacherNameLookup course.teacher (.ok false),
          .teacherInsert ⟨course.teacher, "N/A", jsOr course.«section» (jsOr uSec none)⟩
            (.storeErr m),
          .courseInsert (rowInsertRecord uSec course course.teacherId) .ok]⟩) ∧
    (∀ m, e.teacherInsert = .threw m →
      processRow r uSec i course e =
        ⟨[⟨rowTag i course.code ++ "Warning - Failed to create teacher: " ++ m,
            true, false⟩],
         1,
         [.dupCheck course.code .notFound,
          .teacherNameLookup course.teacher (.ok false),
          .teacherInsert ⟨course.teacher, "N/A", jsOr course.«section» (jsOr uSec none)⟩
            (.threw m),
          .courseInsert (rowInsertRecord uSec course course.teacherId) .ok]⟩) ∧
    jsFalsy (rowInsertRecord uSec course course.teacherId).teacher_id = true := by
  refine ⟨?_, ?_, htid⟩
  · intro m htins
    rw [processRow_notFound hskip hdup,
      resolveTeacher_createErr (by simp [htid, hname]) hlookup htins]
    rcases hci : e.courseInsert with m2 | _ | m2
    · exact absurd (hci.symm.trans hcins) (by simp)
    · simp
    · exact absurd (hci.symm.trans hcins) (by simp)
  · intro m htins
    rw [processRow_notFound hskip hdup,
      resolveTeacher_createThrew (by simp [htid, hname]) hlookup htins]
    rcases hci : e.courseInsert with m2 | _ | m2
    · exact absurd (hci.symm.trans hcins) (by simp)
    · simp
    · exact absurd (hci.symm.trans hcins) (by simp)

/-- Claim C6 witness: a failing teacher insert (in-band error `"phone
constraint"`) on a concrete candidate: one soft warning, row inserted with
no teacher id, success contribution 1. -/
theorem claim_C6_witness :
    ((("admin" : String) == "section_admin" &&
        jsFalsy (⟨"Algo", "CSE101", "Dr. X", [], none, none, none, 3, none, none⟩ :
          NewCourse).«section») = false ∧
      jsFalsy (none : Option String) = true) ∧
    processRow "admin" none 0
        ⟨"Algo", "CSE101", "Dr. X", [], none, none, none, 3, none, none⟩
        ⟨.notFound, .ok false, .storeErr "phone constraint", .ok none, .ok⟩
      = ⟨[⟨"Course #1 (CSE101): Warning - Could not create teacher \"Dr. X\": phone constraint",
            true, false⟩],
         1,
         [.dupCheck "CSE101" .notFound,
          .teacherNameLookup "Dr. X" (.ok false),
          .teacherInsert ⟨"Dr. X", "N/A", none⟩ (.storeErr "phone constraint"),
          .courseInsert ⟨"Algo", "CSE101", "Dr. X", "", none, none, none, 3, none, none⟩ .ok]⟩ :=
  ⟨⟨by decide, by decide⟩, by
    have h := ((claim_C6 none "admin" 0
      ⟨"Algo", "CSE101", "Dr. X", [], none, none, none, 3, none, none⟩
      ⟨.notFound, .ok false, .storeErr "phone constraint", .ok none, .ok⟩
      (by decide) rfl (by decide) (by decide) rfl rfl).1) "phone constraint" rfl
    exact h.trans (by decide)⟩

/-- Claim C7 (confirmed): course mutation is permitted exactly for roles
`admin` and `section_admin`; a `section_admin` additionally needs a truthy
candidate section.  Single `createCourse` raises an error for a
section-less section_admin candidate (the code's message for the spec's
"section required" reason) and a permission error for any other role;
`admin` proceeds to the insert whatever the section value, as does a
`section_admin` with a section.  In the bulk path the same section-less
section_admin row is instead skipped with a soft-warning outcome and no
store call. -/
theorem claim_C7 :
    (∀ (user : Option UserSession) (ins : CInsRes) (course : NewCourse),
      user.bind UserSession.role = some "section_admin" →
      jsFalsy course.«section» = true →
      createCourse user ins course =
        .error "Section admin must specify a section for the course") ∧
    (∀ (user : Option UserSession) (course : NewCourse),
      user.bind UserSession.role = some "admin" →
      createCourse user .ok course =
        .ok ⟨course.name, course.code, course.teacher,
             formatClassTimes course.classTimes, course.telegramGroup, course.blcLink,
             course.blcEnrollKey, course.credit, course.«section», none⟩) ∧
    (∀ (user : Option UserSession) (course : NewCourse),
      user.bind UserSession.role = some "section_admin" →
      jsFalsy course.«section» = false →
      createCourse user .ok course =
        .ok ⟨course.name, course.code, course.teacher,
             formatClassTimes course.classTimes, course.telegramGroup, course.blcLink,
             course.blcEnrollKey, course.credit, course.«section», none⟩) ∧
    (∀ (user : Option UserSession) (ins : CInsRes) (course : NewCourse),
      user.bind UserSession.role = none ∨
        (user.bind UserSession.role ≠ some "admin" ∧
          user.bind UserSession.role ≠ some "section_admin") →
      createCourse user ins course =
        .error "Permission denied: Only admins and section admins can create courses") ∧
    (∀ (uSec : Option String) (i : Nat) (course : NewCourse) (e : RowEnv),
      jsFalsy course.«section» = true →
      processRow "section_admin" uSec i course e =
        ⟨[⟨rowTag i course.code ++ "Section admin must specify a section for the course",
            true, false⟩], 0, []⟩) := by
  refine ⟨?_, ?_, ?_, ?_, ?_⟩
  · intro user ins course hrole hsec
    simp only [createCourse, hrole]
    rw [if_neg (by decide), if_pos (by simp [hsec])]
  · intro user course hrole
    simp [createCourse, hrole, jsFalsy]
  · intro user course hrole hsec
    simp only [createCourse, hrole]
    rw [if_neg (by decide), if_neg (by simp [hsec])]
  · intro user ins course h
    rcases h with h | ⟨h1, h2⟩
    · simp [createCourse, h, jsFalsy]
    · rcases hrole : user.bind UserSession.role with _ | r
      · simp [createCourse, hrole, jsFalsy]
      · rw [hrole] at h1 h2
        have hr1 : r ≠ "admin" := fun hh => h1 (congrArg some hh)
        have hr2 : r ≠ "section_admin" := fun hh => h2 (congrArg some hh)
        by_cases hre : r = ""
        · simp [createCourse, hrole, hre, jsFalsy]
        · simp [createCourse, hrole, hr1, hr2, hre, jsFalsy]
  · intro uSec i course e hsec
    exact processRow_skip (by simp [hsec])

/-- Claim C7 witness: the gate evaluated at concrete sessions — a
section_admin with a section-less candidate is denied in the single path
and soft-skipped in the bulk path, while an admin with no section value is
allowed through to the insert. -/
theorem claim_C7_witness :
    ((some (⟨"s1", some "section_admin", some "S1"⟩ : UserSession)).bind
        UserSession.role = some "section_admin" ∧
      jsFalsy (⟨"Algo", "CSE101", "Dr. X", [], none, none, none, 3, none, none⟩ :
        NewCourse).«section» = true) ∧
    createCourse (some ⟨"s1", some "section_admin", some "S1"⟩) .ok
        ⟨"Algo", "CSE101", "Dr. X", [], none, none, none, 3, none, none⟩
      = .error "Section admin must specify a section for the course" ∧
    createCourse (some ⟨"a1", some "admin", none⟩) .ok
        ⟨"Algo", "CSE101", "Dr. X", [], none, none, none, 3, none, none⟩
      = .ok ⟨"Algo", "CSE101", "Dr. X", "", none, none, none, 3, none, none⟩ ∧
    processRow "section_admin" (some "S1") 0
        ⟨"Algo", "CSE101", "Dr. X", [], none, none, none, 3, none, none⟩
        ⟨.notFound, .ok false, .ok "T1", .ok none, .ok⟩
      = ⟨[⟨"Course #1 (CSE101): Section admin must specify a section for the course",
            true, false⟩], 0, []⟩ :=
  ⟨⟨rfl, rfl⟩,
    claim_C7.1 (some ⟨"s1", some "section_admin", some "S1"⟩) .ok
      ⟨"Algo", "CSE101", "Dr. X", [], none, none, none, 3, none, none⟩ rfl rfl,
    by
      have h := claim_C7.2.1 (some ⟨"a1", some "admin", none⟩)
        ⟨"Algo", "CSE101", "Dr. X", [], none, none, none, 3, none, none⟩ rfl
      exact h.trans rfl,
    claim_C7.2.2.2.2 (some "S1") 0
      ⟨"Algo", "CSE101", "Dr. X", [], none, none, none, 3, none, none⟩
      ⟨.notFound, .ok false, .ok "T1", .ok none, .ok⟩ rfl⟩
